import Mathlib

/-!
# webauthn_firewall/utils.go — a shallow embedding

The Go file `utils.go` of package `webauthn_firewall` holds the handlers of the step-up
authentication gate: `logRequest`, `prepareJSONResponse`, `preamble`, `proxyRequest`,
`ProxyRequest`, `optionsHandler`, `CheckWebauthnAssertion` and `webauthnSecure`.

Everything those functions call that lives elsewhere (the methods of `ExtendedRequest`, the
user store `db.WebauthnStore`, the session store, the engine `webauthnAPI.FinishLogin` and the
reverse proxy `ServeHTTP`) is a field of `Env`: a state transformer over `World`.  Each handler
returns the final world together with the list of calls it made, in call order.
-/

namespace webauthn_firewall

/-! ## Go values, maps and `reflect.DeepEqual` -/

/-- Dynamic values an `interface{}` slot of an extension mapping can hold: what decoding JSON
or CBOR into `interface{}` yields.  The dynamic type is the constructor; `nil` is the nil
interface.  A `float64` is its IEEE 754 binary64 bit pattern, read modulo `2^64`.  A non-nil
`[]interface{}` carries its elements, a non-nil `map[string]interface{}` its bindings, the
first binding of a key in the list being the live one.  Either also carries the address of its
backing array or map object when that is shared with another reference, and `none` when no
other reference reaches it, as for an object fresh from `make` or from a decoder: two
references are to one object exactly when they carry the same address.  Values are finite
trees: a container never holds itself. -/
inductive GoValue where
  | nil
  | bool (b : Bool)
  | string (s : String)
  | int64 (n : Int)
  | uint64 (n : Nat)
  | float64 (bits : Nat)
  | nilSlice
  | slice (data : Option Nat) (elems : List GoValue)
  | nilMap
  | map (object : Option Nat) (entries : List (String × GoValue))

mutual
/-- Structural equality of two values, as a boolean. -/
def GoValue.beq : GoValue → GoValue → Bool
  | .nil, .nil => true
  | .bool a, .bool b => a == b
  | .string a, .string b => a == b
  | .int64 a, .int64 b => a == b
  | .uint64 a, .uint64 b => a == b
  | .float64 a, .float64 b => a == b
  | .nilSlice, .nilSlice => true
  | .slice p xs, .slice q ys => p == q && GoValue.beqElems xs ys
  | .nilMap, .nilMap => true
  | .map p xs, .map q ys => p == q && GoValue.beqEntries xs ys
  | _, _ => false
/-- Structural equality of two lists of values. -/
def GoValue.beqElems : List GoValue → List GoValue → Bool
  | [], [] => true
  | x :: xs, y :: ys => GoValue.beq x y && GoValue.beqElems xs ys
  | _, _ => false
/-- Structural equality of two lists of bindings. -/
def GoValue.beqEntries : List (String × GoValue) → List (String × GoValue) → Bool
  | [], [] => true
  | (k, x) :: xs, (l, y) :: ys => k == l && GoValue.beq x y && GoValue.beqEntries xs ys
  | _, _ => false
end

mutual
theorem GoValue.beq_iff : ∀ (a b : GoValue), GoValue.beq a b = true ↔ a = b
  | .slice p xs, b => by
    cases b <;> simp [GoValue.beq]
    intro _
    exact GoValue.beqElems_iff xs _
  | .map p xs, b => by
    cases b <;> simp [GoValue.beq]
    intro _
    exact GoValue.beqEntries_iff xs _
  | .nil, b => by cases b <;> simp [GoValue.beq]
  | .bool _, b => by cases b <;> simp [GoValue.beq]
  | .string _, b => by cases b <;> simp [GoValue.beq]
  | .int64 _, b => by cases b <;> simp [GoValue.beq]
  | .uint64 _, b => by cases b <;> simp [GoValue.beq]
  | .float64 _, b => by cases b <;> simp [GoValue.beq]
  | .nilSlice, b => by cases b <;> simp [GoValue.beq]
  | .nilMap, b => by cases b <;> simp [GoValue.beq]
theorem GoValue.beqElems_iff :
    ∀ (xs ys : List GoValue), GoValue.beqElems xs ys = true ↔ xs = ys
  | [], ys => by cases ys <;> simp [GoValue.beqElems]
  | x :: xs, ys => by
    cases ys with
    | nil => simp [GoValue.beqElems]
    | cons y ys => simp [GoValue.beqElems, GoValue.beq_iff x y, GoValue.beqElems_iff xs ys]
theorem GoValue.beqEntries_iff :
    ∀ (xs ys : List (String × GoValue)), GoValue.beqEntries xs ys = true ↔ xs = ys
  | [], ys => by cases ys <;> simp [GoValue.beqEntries]
  | (k, x) :: xs, ys => by
    cases ys with
    | nil => simp [GoValue.beqEntries]
    | cons y ys =>
      obtain ⟨l, y⟩ := y
      simp [GoValue.beqEntries, GoValue.beq_iff x y, GoValue.beqEntries_iff xs ys, and_assoc]
end

instance : DecidableEq GoValue := fun a b =>
  decidable_of_iff _ (GoValue.beq_iff a b)

/-- The value is of a plain scalar type: nil, bool, string, int64 or uint64. -/
def GoValue.isPlain : GoValue → Bool
  | .nil => true
  | .bool _ => true
  | .string _ => true
  | .int64 _ => true
  | .uint64 _ => true
  | _ => false

/-- The bindings of a map read at a key: the first binding of the key, if any. -/
def entriesIndex : List (String × GoValue) → String → Option GoValue
  | [], _ => none
  | (k1, v) :: rest, k => if k1 = k then some v else entriesIndex rest k

/-- The number of keys a list of bindings binds. -/
def entriesLen (entries : List (String × GoValue)) : Nat :=
  (entries.map Prod.fst).toFinset.card

/-- A non-nil Go map of type `map[string]interface{}`: its bindings, the first binding of a key
being the live one, and the address of the map object when it is shared with another
reference (`none` when no other reference reaches it). -/
structure GoMap where
  object : Option Nat
  entries : List (String × GoValue)
  deriving DecidableEq

/-- The Go expression `len(m)` on a map object. -/
def GoMap.len (m : GoMap) : Nat :=
  entriesLen m.entries

/-- The Go expression `v, ok := m[k]` on a map object. -/
def GoMap.index (m : GoMap) (k : String) : Option GoValue :=
  entriesIndex m.entries k

/-- The Go statement `m[k] = v` on a map object: the new binding hides any older one. -/
def GoMap.assign (m : GoMap) (k : String) (v : GoValue) : GoMap :=
  { m with entries := (k, v) :: m.entries }

/-- The type `protocol.AuthenticationExtensions`, a `map[string]interface{}`: `none` is the nil
map, `some m` a map object. -/
abbrev AuthenticationExtensions := Option GoMap

/-- The Go expression `len(m)`; a nil map has length 0. -/
def AuthenticationExtensions.len : AuthenticationExtensions → Nat
  | none => 0
  | some m => m.len

/-- The Go expression `v, ok := m[k]`; reading a nil map finds nothing. -/
def AuthenticationExtensions.index : AuthenticationExtensions → String → Option GoValue
  | none, _ => none
  | some m, k => m.index k

namespace reflect

/-- The comparison of `UnsafePointer()` on two non-nil containers: they are one object when
both references carry the same address. -/
def samePointer : Option Nat → Option Nat → Bool
  | some a, some b => a == b
  | _, _ => false

/-- The bit pattern is a NaN: exponent all ones, fraction not zero. -/
def float64IsNaN (bits : Nat) : Bool :=
  (bits / 2 ^ 52) % 2 ^ 11 == 2047 && bits % 2 ^ 52 != 0

/-- The Go comparison `==` on two `float64`: a NaN equals nothing, the two zeros are equal,
any other two numbers are equal when their bit patterns are. -/
def float64Equal (a b : Nat) : Bool :=
  !float64IsNaN a && !float64IsNaN b &&
    (a % 2 ^ 64 == b % 2 ^ 64 || (a % 2 ^ 63 == 0 && b % 2 ^ 63 == 0))

mutual
/-- The function `deepValueEqual` of package `reflect` at two `interface{}` elements.  Two nil
interfaces are equal, a nil and a non-nil one are not, and two values of different dynamic type
are not.  Scalars are compared with `==`.  Two slices must be both nil or both non-nil and of
one length, and then either share their backing array or have deeply equal elements.  Two maps
must be both nil or both non-nil and of one length, and then either be the same map object or
bind every key of the first, in the second, to a deeply equal value. -/
def deepValueEqual : GoValue → GoValue → Bool
  | .nil, .nil => true
  | .bool a, .bool b => a == b
  | .string a, .string b => a == b
  | .int64 a, .int64 b => a == b
  | .uint64 a, .uint64 b => a == b
  | .float64 a, .float64 b => float64Equal a b
  | .nilSlice, .nilSlice => true
  | .slice p xs, .slice q ys =>
    decide (xs.length = ys.length) && (samePointer p q || deepElemsEqual xs ys)
  | .nilMap, .nilMap => true
  | .map p m1, .map q m2 =>
    decide (entriesLen m1 = entriesLen m2) && (samePointer p q || deepEntriesEqual [] m1 m2)
  | _, _ => false
/-- The loop of the `Slice` case: element by element. -/
def deepElemsEqual : List GoValue → List GoValue → Bool
  | [], _ => true
  | x :: xs, y :: ys => deepValueEqual x y && deepElemsEqual xs ys
  | _ :: _, [] => false
/-- The loop of the `Map` case over the keys of the first map: a binding hidden by an earlier
one (its key is in `seen`) is not part of the map; any other key must be bound in the second
map (`val2.IsValid()`) to a deeply equal value. -/
def deepEntriesEqual (seen : List String) :
    List (String × GoValue) → List (String × GoValue) → Bool
  | [], _ => true
  | (k, v1) :: rest, m2 =>
    (decide (k ∈ seen) ||
      (match entriesIndex m2 k with
       | some v2 => deepValueEqual v1 v2
       | none => false)) &&
    deepEntriesEqual (k :: seen) rest m2
end

/-- The function `reflect.DeepEqual` at two values of type `AuthenticationExtensions`, the `Map`
case of `deepValueEqual`: the two must be both nil or both non-nil (`IsNil`), have the same
length (`Len`), and then either be the same map object (`UnsafePointer`) or bind every key of
the first, in the second, to a deeply equal value. -/
def DeepEqual (x y : AuthenticationExtensions) : Bool :=
  match x, y with
  | none, none => true
  | some m1, some m2 =>
    decide (m1.len = m2.len) &&
      (samePointer m1.object m2.object || deepEntriesEqual [] m1.entries m2.entries)
  | _, _ => false

end reflect


/-- Two readings of one key agree: the key is bound in neither map, or in both, to deeply equal
values. -/
def BoundAlike : Option GoValue → Option GoValue → Prop
  | none, none => True
  | some v, some w => reflect.deepValueEqual v w = true
  | _, _ => False

/-- The two mappings bind the same keys, each to deeply equal values. -/
def DeeplyEqualPairs (E C : AuthenticationExtensions) : Prop :=
  ∀ k, BoundAlike (E.index k) (C.index k)

/-- The two mappings are references to one map object. -/
def SameObject (E C : AuthenticationExtensions) : Prop :=
  ∃ m1 m2 a, E = some m1 ∧ C = some m2 ∧ m1.object = some a ∧ m2.object = some a ∧
    m1.len = m2.len

/-- The relation `reflect.DeepEqual` decides on two mappings, in words: both are nil or both
are map objects, and they are one object or bind the same keys to deeply equal values. -/
def DeeplyEqual (E C : AuthenticationExtensions) : Prop :=
  E.isSome = C.isSome ∧ (SameObject E C ∨ DeeplyEqualPairs E C)

/-- The dynamic type of a value, as `%T` prints it. -/
def GoValue.typeName : GoValue → String
  | .nil => "<nil>"
  | .bool _ => "bool"
  | .string _ => "string"
  | .int64 _ => "int64"
  | .uint64 _ => "uint64"
  | .float64 _ => "float64"
  | .nilSlice => "[]interface {}"
  | .slice _ _ => "[]interface {}"
  | .nilMap => "map[string]interface {}"
  | .map _ _ => "map[string]interface {}"

/-- The reading of "equal" in the specification: the two mappings bind the same keys, each to
the same value. -/
def SameKeyValuePairs (E C : AuthenticationExtensions) : Prop :=
  ∀ k, E.index k = C.index k

/-! ## Errors -/

/-- A non-nil Go `error` value: one built here by `fmt.Errorf` (kept as its format string and
arguments), or one handed back by a collaborator. -/
inductive GoError where
  | Errorf (format : String) (args : List AuthenticationExtensions)
  | foreign (msg : String)
  deriving DecidableEq

/-- The Go interface type `error`: `none` is `nil`. -/
abbrev error := Option GoError

/-- The type `protocol.ExtensionsVerifier`. -/
abbrev ExtensionsVerifier := AuthenticationExtensions → AuthenticationExtensions → error

/-- The closure `verifyTxAuthSimple` built inside `CheckWebauthnAssertion` (lines 88–97); it
captures `expectedExtensions` and ignores its first argument. -/
def verifyTxAuthSimple (expectedExtensions : AuthenticationExtensions) : ExtensionsVerifier :=
  fun _ clientDataExtensions =>
    if !reflect.DeepEqual expectedExtensions clientDataExtensions then
      some (GoError.Errorf "Extensions verification failed: Expected %v, Received %v"
        [expectedExtensions, clientDataExtensions])
    else
      none

/-- The mapping built at lines 147–148: `make(protocol.AuthenticationExtensions)`, a fresh map
object, followed by `extensions["txAuthSimple"] = authnText`. -/
def txAuthSimpleExtensions (authnText : String) : AuthenticationExtensions :=
  some (GoMap.assign ⟨none, []⟩ "txAuthSimple" (GoValue.string authnText))

/-! ## The world the handlers run in -/

namespace http

/-- The constant `http.StatusNoContent`. -/
def StatusNoContent : Nat := 204

/-- The constant `http.StatusBadRequest`. -/
def StatusBadRequest : Nat := 400

/-- The type `http.Header` with the one value `Set` leaves under a key.  The keys this file
sets are already in canonical form. -/
abbrev Header := Finmap (fun _ : String => String)

/-- The method `Header.Set`: binds the key to this one value, replacing what was there. -/
def Header.Set (h : Header) (key value : String) : Header :=
  h.insert key value

/-- The method `Header.Get`: the value under the key, `""` when there is none. -/
def Header.Get (h : Header) (key : String) : String :=
  (h.lookup key).getD ""

/-- An `http.ResponseWriter`: the header map, the status code sent by `WriteHeader` (`none`
while none was sent) and the body bytes written so far. -/
structure ResponseWriter where
  header : Header
  status : Option Nat
  body : List UInt8
  deriving DecidableEq

/-- The method `ResponseWriter.WriteHeader`: sends the status code; a second call is ignored. -/
def ResponseWriter.WriteHeader (w : ResponseWriter) (statusCode : Nat) : ResponseWriter :=
  match w.status with
  | some _ => w
  | none => { w with status := some statusCode }

/-- The fields of `http.Request` read in this file; `URL` is the printed form of `r.URL`. -/
structure Request where
  Method : String
  URL : String
  deriving DecidableEq

end http

namespace db

/-- Modelled from the spec: the query key of the user store, "by-user-id" (package `db` is not
part of this file). -/
structure WebauthnQuery where
  userID : Int
  deriving DecidableEq

/-- Modelled from the spec: the constructor `db.QueryByUserID` of a by-user-id query. -/
def QueryByUserID (userID : Int) : WebauthnQuery :=
  ⟨userID⟩

end db

/-- The fields of `WebauthnFirewall` read in this file. -/
structure WebauthnFirewall where
  FrontendAddress : String
  verbose : Bool

/-- Everything a handler can touch: the response writer `w`, the wrapped `r.Request`, the lines
sent to the logger, and `hidden`, the state this file never inspects (the buffered body and the
recorded error of the `ExtendedRequest`, the user and session stores, the backend). -/
structure World (σ : Type) where
  w : http.ResponseWriter
  Request : http.Request
  logged : List String
  hidden : σ

/-- The collaborators of this file, each a state transformer over the world.  `U` is the type of
a resolved webauthn user, `D` the type of the session data. -/
structure Env (σ U D : Type) where
  /-- The method `r.HandleAnyErrors(w)`. -/
  HandleAnyErrors : World σ → Bool × World σ
  /-- The method `r.HandleError(w, err)`. -/
  HandleError : error → World σ → Bool × World σ
  /-- The method `r.HandleError_WithStatus(w, err, status)`. -/
  HandleError_WithStatus : error → Nat → World σ → Bool × World σ
  /-- The method `r.GetUserID()`. -/
  GetUserID : World σ → (Int × error) × World σ
  /-- The method `r.Get_WithErr(field)`. -/
  Get_WithErr : String → World σ → (String × error) × World σ
  /-- The method `r.Refill()`. -/
  Refill : World σ → World σ
  /-- The call `db.WebauthnStore.IsUserEnabled(query)`. -/
  IsUserEnabled : db.WebauthnQuery → World σ → Bool × World σ
  /-- The call `db.WebauthnStore.GetWebauthnUser(query)`. -/
  GetWebauthnUser : db.WebauthnQuery → World σ → (U × error) × World σ
  /-- The call `sessionStore.GetWebauthnSession(name, r.Request)`. -/
  GetWebauthnSession : String → World σ → (D × error) × World σ
  /-- The call `webauthnAPI.FinishLogin(user, session, verifier, assertion)`; the credential it
  also returns is dropped by the caller and left out here. -/
  FinishLogin : U → D → ExtensionsVerifier → String → World σ → error × World σ
  /-- The method `wfirewall.ServeHTTP(w, r)`: forwards the request to the backend. -/
  ServeHTTP : World σ → World σ

/-- One call made by a handler, with its arguments and what it returned. -/
inductive Event where
  | HandleAnyErrors (reported : Bool)
  | HandleError (err : error) (reported : Bool)
  | HandleError_WithStatus (err : error) (status : Nat) (reported : Bool)
  | GetUserID (userID : Int) (err : error)
  | IsUserEnabled (query : db.WebauthnQuery) (isEnabled : Bool)
  | Get_WithErr (field : String) (value : String) (err : error)
  | getAuthnText (authnText : String)
  | CheckWebauthnAssertion (query : db.WebauthnQuery)
      (expectedExtensions : AuthenticationExtensions) (assertion : String)
  | GetWebauthnUser (query : db.WebauthnQuery) (err : error)
  | GetWebauthnSession (name : String) (err : error)
  | FinishLogin (assertion : String) (err : error)
  | Refill
  | ServeHTTP
  deriving DecidableEq

/-- An error checkpoint that reported an error (returned `true`). -/
def Event.isReport : Event → Bool
  | .HandleAnyErrors reported => reported
  | .HandleError _ reported => reported
  | .HandleError_WithStatus _ _ reported => reported
  | _ => false

/-- What a function leaves behind: its return value, the world, the calls it made in order,
and the world each of its calls of `getAuthnText` returned. -/
structure Run (σ α : Type) where
  ret : α
  world : World σ
  trace : List Event
  afterAuthnText : List (World σ)

variable {σ U D : Type}

/-! ## The functions of `utils.go` -/

/-- Lines 16–18. -/
def logRequest (s : World σ) : World σ :=
  { s with logged := s.logged ++ [s.Request.Method ++ ":\t" ++ s.Request.URL] }

/-- Lines 20–24. -/
def prepareJSONResponse (wfirewall : WebauthnFirewall) (s : World σ) : World σ :=
  let s1 := { s with w := { s.w with
    header := http.Header.Set s.w.header "Access-Control-Allow-Origin" wfirewall.FrontendAddress } }
  { s1 with w := { s1.w with
    header := http.Header.Set s1.w.header "Content-Type" "application/json" } }

/-- Lines 26–34. -/
def preamble (wfirewall : WebauthnFirewall) (s : World σ) : World σ :=
  -- if wfirewall.verbose { logRequest(r) }
  let s1 := if wfirewall.verbose then logRequest s else s
  -- w.Header().Set("Access-Control-Allow-Credentials", "true")
  { s1 with w := { s1.w with
    header := http.Header.Set s1.w.header "Access-Control-Allow-Credentials" "true" } }

/-- Lines 36–42. -/
def proxyRequest (wfirewall : WebauthnFirewall) (env : Env σ U D) (s : World σ) : Run σ Unit :=
  -- if wfirewall.verbose { logRequest(r) }
  let s1 := if wfirewall.verbose then logRequest s else s
  -- wfirewall.ServeHTTP(w, r)
  ⟨(), env.ServeHTTP s1, [Event.ServeHTTP], []⟩

/-- Lines 44–53. -/
def ProxyRequest (wfirewall : WebauthnFirewall) (env : Env σ U D) (s : World σ) : Run σ Unit :=
  -- if r.HandleAnyErrors(w) { return }
  let c := env.HandleAnyErrors s
  if c.1 then
    ⟨(), c.2, [Event.HandleAnyErrors c.1], []⟩
  else
    -- r.Refill()
    let s1 := env.Refill c.2
    -- wfirewall.proxyRequest(w, r)
    let p := proxyRequest wfirewall env s1
    ⟨(), p.world, [Event.HandleAnyErrors c.1, Event.Refill] ++ p.trace, p.afterAuthnText⟩

/-- The function `strings.Join`. -/
def strings.Join : List String → String → String
  | [], _ => ""
  | [a], _ => a
  | a :: b :: rest, sep => a ++ sep ++ strings.Join (b :: rest) sep

/-- Lines 55–67. -/
def optionsHandler (wfirewall : WebauthnFirewall) (allowMethods : List String)
    (s : World σ) : Run σ Unit :=
  -- wfirewall.preamble(w, r)
  let s1 := preamble wfirewall s
  let h1 := http.Header.Set s1.w.header "Access-Control-Allow-Headers"
    "Origin,Content-Type,Accept,Authorization"
  let h2 := http.Header.Set h1 "Access-Control-Allow-Methods" (strings.Join allowMethods ",")
  let h3 := http.Header.Set h2 "Access-Control-Allow-Origin" wfirewall.FrontendAddress
  -- w.WriteHeader(http.StatusNoContent)
  let w4 := http.ResponseWriter.WriteHeader { s1.w with header := h3 } http.StatusNoContent
  ⟨(), { s1 with w := w4 }, [], []⟩

/-- Lines 69–109. -/
def CheckWebauthnAssertion (env : Env σ U D) (query : db.WebauthnQuery)
    (expectedExtensions : AuthenticationExtensions) (assertion : String)
    (s : World σ) : Run σ error :=
  -- wuser, err := db.WebauthnStore.GetWebauthnUser(query)
  let u := env.GetWebauthnUser query s
  let t1 := [Event.GetWebauthnUser query u.1.2]
  if u.1.2.isSome then
    ⟨u.1.2, u.2, t1, []⟩
  else
    -- sessionData, err := sessionStore.GetWebauthnSession("authentication", r.Request)
    let d := env.GetWebauthnSession "authentication" u.2
    let t2 := t1 ++ [Event.GetWebauthnSession "authentication" d.1.2]
    if d.1.2.isSome then
      ⟨d.1.2, d.2, t2, []⟩
    else
      -- _, err = webauthnAPI.FinishLogin(wuser, sessionData, verifyTxAuthSimple, assertion)
      let f := env.FinishLogin u.1.1 d.1.1 (verifyTxAuthSimple expectedExtensions) assertion d.2
      let t3 := t2 ++ [Event.FinishLogin assertion f.1]
      if f.1.isSome then
        ⟨f.1, f.2, t3, []⟩
      else
        ⟨none, f.2, t3, []⟩

/-- Lines 131–158 of `webauthnSecure`, the body of `if isEnabled`; the return value is `true`
when the block ran one of its `return` statements. -/
def webauthnSecure.check (env : Env σ U D) (getAuthnText : World σ → String × World σ)
    (userID : Int) (s : World σ) : Run σ Bool :=
  -- assertion, err := r.Get_WithErr("assertion")
  let a := env.Get_WithErr "assertion" s
  -- if r.HandleError(w, err) { return }
  let c3 := env.HandleError a.1.2 a.2
  let t1 := [Event.Get_WithErr "assertion" a.1.1 a.1.2, Event.HandleError a.1.2 c3.1]
  if c3.1 then
    ⟨true, c3.2, t1, []⟩
  else
    -- authnText := getAuthnText(r)
    let g := getAuthnText c3.2
    -- if r.HandleAnyErrors(w) { return }
    let c4 := env.HandleAnyErrors g.2
    let t2 := t1 ++ [Event.getAuthnText g.1, Event.HandleAnyErrors c4.1]
    if c4.1 then
      ⟨true, c4.2, t2, [g.2]⟩
    else
      -- extensions := make(protocol.AuthenticationExtensions)
      -- extensions["txAuthSimple"] = authnText
      let extensions := txAuthSimpleExtensions g.1
      -- err = CheckWebauthnAssertion(r, db.QueryByUserID(userID), extensions, assertion)
      let v := CheckWebauthnAssertion env (db.QueryByUserID userID) extensions a.1.1 c4.2
      -- if r.HandleError_WithStatus(w, err, http.StatusBadRequest) { return }
      let c5 := env.HandleError_WithStatus v.ret http.StatusBadRequest v.world
      let t3 := t2 ++ [Event.CheckWebauthnAssertion (db.QueryByUserID userID) extensions a.1.1]
        ++ v.trace ++ [Event.HandleError_WithStatus v.ret http.StatusBadRequest c5.1]
      if c5.1 then
        ⟨true, c5.2, t3, [g.2]⟩
      else
        -- r.Refill()
        ⟨false, env.Refill c5.2, t3 ++ [Event.Refill], [g.2]⟩

/-- Lines 111–165. -/
def webauthnSecure (wfirewall : WebauthnFirewall) (env : Env σ U D)
    (getAuthnText : World σ → String × World σ) (s : World σ) : Run σ Unit :=
  -- if r.HandleAnyErrors(w) { return }
  let c1 := env.HandleAnyErrors s
  let t1 := [Event.HandleAnyErrors c1.1]
  if c1.1 then
    ⟨(), c1.2, t1, []⟩
  else
    -- wfirewall.preamble(w, r)
    let s2 := preamble wfirewall c1.2
    -- userID, err := r.GetUserID()
    let g := env.GetUserID s2
    -- if r.HandleError(w, err) { return }
    let c2 := env.HandleError g.1.2 g.2
    let t2 := t1 ++ [Event.GetUserID g.1.1 g.1.2, Event.HandleError g.1.2 c2.1]
    if c2.1 then
      ⟨(), c2.2, t2, []⟩
    else
      -- isEnabled := db.WebauthnStore.IsUserEnabled(db.QueryByUserID(userID))
      let en := env.IsUserEnabled (db.QueryByUserID g.1.1) c2.2
      let t3 := t2 ++ [Event.IsUserEnabled (db.QueryByUserID g.1.1) en.1]
      -- if isEnabled { ... }
      let blk : Run σ Bool :=
        if en.1 then webauthnSecure.check env getAuthnText g.1.1 en.2 else ⟨false, en.2, [], []⟩
      if blk.ret then
        ⟨(), blk.world, t3 ++ blk.trace, blk.afterAuthnText⟩
      else
        -- wfirewall.ServeHTTP(w, r)
        ⟨(), env.ServeHTTP blk.world, t3 ++ blk.trace ++ [Event.ServeHTTP], blk.afterAuthnText⟩

/-! ## Reading a list of calls -/

/-- A call made by `CheckWebauthnAssertion` itself: to the user store, the session store or the
engine. -/
def Event.isLookup : Event → Bool
  | .GetWebauthnUser _ _ => true
  | .GetWebauthnSession _ _ => true
  | .FinishLogin _ _ => true
  | _ => false

/-- The list of calls ends at the first checkpoint that reported an error. -/
def stopsAtReport : List Event → Bool
  | [] => true
  | e :: rest => if e.isReport then rest.isEmpty else stopsAtReport rest

/-- Some call of `getAuthnText` is directly followed by a `HandleAnyErrors` that reported an
error. -/
def authnTextRejected : List Event → Bool
  | Event.getAuthnText _ :: Event.HandleAnyErrors true :: _ => true
  | _ :: rest => authnTextRejected rest
  | [] => false

/-! ## A reference environment

A small executable instance of `Env`, used to run the handlers on concrete requests. -/

namespace demo

/-- Modelled from the spec: the RequestContext of §3 and §4.1 (the buffered body, the body
stream, the first recorded error with its status override) and the stores and backend of §6, as
far as the handlers consult them.  The methods of `ExtendedRequest` and the stores are not part
of `utils.go`. -/
structure Gate where
  /-- The form fields of the body as the client sent it. -/
  original : List (String × String)
  /-- What a reader of the body stream still finds. -/
  stream : List (String × String)
  /-- The first recorded error and the status to surface it with. -/
  recorded : Option (GoError × Option Nat)
  /-- The status used when the recorded error names none. -/
  defaultStatus : Nat
  /-- What the session resolves the caller to. -/
  caller : Int × error
  /-- The identities with step-up enabled. -/
  enabled : List Int
  /-- The identities known to the user store. -/
  users : List Int
  /-- The pending challenge of the authentication ceremony. -/
  challenge : Option String
  /-- The bodies the backend received. -/
  received : List (List (String × String))

/-- Modelled from the spec: `recordError(err, status)`, first error wins. -/
def recordError (err : GoError) (status : Option Nat) (s : World Gate) : World Gate :=
  match s.hidden.recorded with
  | some _ => s
  | none => { s with hidden := { s.hidden with recorded := some (err, status) } }

/-- Modelled from the spec: `hasAnyError()`, which writes the error response (the recorded
status, else the default) when an error is recorded. -/
def HandleAnyErrors (s : World Gate) : Bool × World Gate :=
  match s.hidden.recorded with
  | none => (false, s)
  | some (_, status) =>
    (true, { s with w := s.w.WriteHeader (status.getD s.hidden.defaultStatus) })

/-- Modelled from the spec: the checkpoint on one error value, recorded without a status. -/
def HandleError (err : error) (s : World Gate) : Bool × World Gate :=
  match err with
  | none => HandleAnyErrors s
  | some e => HandleAnyErrors (recordError e none s)

/-- Modelled from the spec: the checkpoint on one error value, recorded with its status. -/
def HandleError_WithStatus (err : error) (status : Nat) (s : World Gate) : Bool × World Gate :=
  match err with
  | none => HandleAnyErrors s
  | some e => HandleAnyErrors (recordError e (some status) s)

/-- Modelled from the spec: `get(field)`, which drains the stream and answers from the buffer;
an absent field is a MissingField error, also recorded on the context. -/
def Get_WithErr (field : String) (s : World Gate) : (String × error) × World Gate :=
  let s1 : World Gate := { s with hidden := { s.hidden with stream := [] } }
  match s.hidden.original.lookup field with
  | some v => ((v, none), s1)
  | none =>
    (("", some (GoError.foreign ("missing field " ++ field))),
      recordError (GoError.foreign ("missing field " ++ field)) none s1)

/-- Modelled from the spec: `restoreForForwarding()`. -/
def Refill (s : World Gate) : World Gate :=
  { s with hidden := { s.hidden with stream := s.hidden.original } }

/-- Modelled from the spec: the extensions the authenticator signed over.  The reference
engine takes the assertion string itself as the signed transaction text. -/
def signed (assertion : String) : AuthenticationExtensions :=
  some ⟨none, [("txAuthSimple", GoValue.string assertion)]⟩

/-- Modelled from the spec: the checkpoints of §4.1 and the stores, engine and backend of §6
put together. -/
def env : Env Gate Int String where
  HandleAnyErrors := HandleAnyErrors
  HandleError := HandleError
  HandleError_WithStatus := HandleError_WithStatus
  GetUserID := fun s => (s.hidden.caller, s)
  Get_WithErr := Get_WithErr
  Refill := Refill
  IsUserEnabled := fun q s => (decide (q.userID ∈ s.hidden.enabled), s)
  GetWebauthnUser := fun q s =>
    if q.userID ∈ s.hidden.users then ((q.userID, none), s)
    else ((0, some (GoError.foreign "unknown identity")), s)
  GetWebauthnSession := fun _ s =>
    match s.hidden.challenge with
    | some c => ((c, none), s)
    | none => (("", some (GoError.foreign "no pending challenge")), s)
  FinishLogin := fun _ _ verify assertion s => (verify none (signed assertion), s)
  ServeHTTP := fun s =>
    { s with
      w := s.w.WriteHeader 200
      hidden := { s.hidden with received := s.hidden.received ++ [s.hidden.stream] } }

/-- A firewall configuration. -/
def firewall : WebauthnFirewall :=
  { FrontendAddress := "https://bank.example", verbose := true }

/-- A request by identity 7 with the given form fields; step-up is enabled for the identities
listed. -/
def request (fields : List (String × String)) (enabled : List Int) : World Gate :=
  { w := { header := ∅, status := none, body := [] }
    Request := { Method := "POST", URL := "/withdraw" }
    logged := []
    hidden :=
      { original := fields, stream := fields, recorded := none, defaultStatus := 500
        caller := (7, none), enabled := enabled, users := [7], challenge := some "c1"
        received := [] } }

/-- A transaction text: "withdraw $" followed by the field `amount`. -/
def withdrawText (s : World Gate) : String × World Gate :=
  let a := Get_WithErr "amount" s
  (if a.1.2.isSome then "" else "withdraw $" ++ a.1.1, a.2)

/-- A text function that returns the empty string and records nothing. -/
def emptyText (s : World Gate) : String × World Gate :=
  ("", s)

/-- A text function that gives up: it records an error to be surfaced with status 422 and
returns the empty string. -/
def rejectingText (s : World Gate) : String × World Gate :=
  ("", recordError (GoError.foreign "unknown transaction") (some 422) s)

end demo

end webauthn_firewall

namespace webauthn_firewall

variable {σ U D : Type}

/-! ## What `reflect.DeepEqual` decides -/

theorem entriesIndex_isSome (es : List (String × GoValue)) (k : String) :
    (entriesIndex es k).isSome = true ↔ k ∈ (es.map Prod.fst).toFinset := by
  induction es with
  | nil => simp [entriesIndex]
  | cons e rest ih =>
    obtain ⟨k1, v⟩ := e
    by_cases h : k1 = k
    · simp [entriesIndex, h]
    · have h2 : ¬ k = k1 := fun h3 => h h3.symm
      simp only [entriesIndex, h, if_false, ih]
      simp [h2]

theorem entriesIndex_eq_none (es : List (String × GoValue)) (k : String) :
    entriesIndex es k = none ↔ k ∉ (es.map Prod.fst).toFinset := by
  rw [← entriesIndex_isSome]
  cases entriesIndex es k <;> simp

theorem deepEntriesEqual_iff (seen : List String) (es m2 : List (String × GoValue)) :
    reflect.deepEntriesEqual seen es m2 = true ↔
      ∀ k v1, k ∉ seen → entriesIndex es k = some v1 →
        ∃ v2, entriesIndex m2 k = some v2 ∧ reflect.deepValueEqual v1 v2 = true := by
  induction es generalizing seen with
  | nil => simp [reflect.deepEntriesEqual, entriesIndex]
  | cons e rest ih =>
    obtain ⟨k0, v0⟩ := e
    rw [reflect.deepEntriesEqual, Bool.and_eq_true, ih]
    constructor
    · rintro ⟨h1, h2⟩ k v1 hk hv
      by_cases hk0 : k0 = k
      · subst hk0
        simp only [entriesIndex, if_true, Option.some.injEq] at hv
        subst hv
        simp only [Bool.or_eq_true, decide_eq_true_eq] at h1
        rcases h1 with h1 | h1
        · exact absurd h1 hk
        · cases hm : entriesIndex m2 k0 with
          | none => simp [hm] at h1
          | some v2 => exact ⟨v2, rfl, by simpa [hm] using h1⟩
      · simp only [entriesIndex, hk0, if_false] at hv
        refine h2 k v1 ?_ hv
        intro hm
        rcases List.mem_cons.mp hm with h | h
        · exact hk0 h.symm
        · exact hk h
    · intro h
      constructor
      · simp only [Bool.or_eq_true, decide_eq_true_eq]
        by_cases hs : k0 ∈ seen
        · exact Or.inl hs
        · right
          obtain ⟨v2, hv2, hd⟩ := h k0 v0 hs (by simp [entriesIndex])
          simp [hv2, hd]
      · intro k v1 hk hv
        have hk0 : k0 ≠ k := by
          intro h0
          exact hk (by simp [h0])
        exact h k v1 (fun hs => hk (List.mem_cons_of_mem _ hs))
          (by simp only [entriesIndex, hk0, if_false]; exact hv)

theorem entries_alike_iff (m1 m2 : List (String × GoValue)) :
    (entriesLen m1 = entriesLen m2 ∧
      ∀ k v1, entriesIndex m1 k = some v1 →
        ∃ v2, entriesIndex m2 k = some v2 ∧ reflect.deepValueEqual v1 v2 = true) ↔
    ∀ k, BoundAlike (entriesIndex m1 k) (entriesIndex m2 k) := by
  constructor
  · rintro ⟨hlen, hall⟩ k
    have hsub : (m1.map Prod.fst).toFinset ⊆ (m2.map Prod.fst).toFinset := by
      intro x hx
      rw [← entriesIndex_isSome] at hx ⊢
      cases h1 : entriesIndex m1 x with
      | none => simp [h1] at hx
      | some v1 =>
        obtain ⟨v2, hv2, _⟩ := hall x v1 h1
        simp [hv2]
    have hkeys : (m1.map Prod.fst).toFinset = (m2.map Prod.fst).toFinset :=
      Finset.eq_of_subset_of_card_le hsub (le_of_eq hlen.symm)
    cases h1 : entriesIndex m1 k with
    | none =>
      have hk := (entriesIndex_eq_none m1 k).mp h1
      rw [hkeys] at hk
      rw [(entriesIndex_eq_none m2 k).mpr hk]
      trivial
    | some v1 =>
      obtain ⟨v2, hv2, hd⟩ := hall k v1 h1
      rw [hv2]
      exact hd
  · intro h
    constructor
    · unfold entriesLen
      congr 1
      ext k
      rw [← entriesIndex_isSome, ← entriesIndex_isSome]
      have := h k
      cases h1 : entriesIndex m1 k <;> cases h2 : entriesIndex m2 k <;>
        simp [h1, h2, BoundAlike] at this ⊢
    · intro k v1 h1
      have := h k
      rw [h1] at this
      cases h2 : entriesIndex m2 k with
      | none => simp [h2, BoundAlike] at this
      | some v2 => exact ⟨v2, rfl, by simpa [h2, BoundAlike] using this⟩

theorem deepEqual_iff (E C : AuthenticationExtensions) :
    reflect.DeepEqual E C = true ↔
      (E.isSome = C.isSome ∧ (SameObject E C ∨ DeeplyEqualPairs E C)) := by
  cases E with
  | none =>
    cases C with
    | none =>
      simp only [reflect.DeepEqual, Option.isSome_none, true_and, true_iff]
      right
      intro k
      simp [AuthenticationExtensions.index, BoundAlike]
    | some m2 => simp [reflect.DeepEqual]
  | some m1 =>
    cases C with
    | none => simp [reflect.DeepEqual]
    | some m2 =>
      have hpairs : DeeplyEqualPairs (some m1) (some m2) ↔
          ∀ k, BoundAlike (entriesIndex m1.entries k) (entriesIndex m2.entries k) := Iff.rfl
      have hsame : SameObject (some m1) (some m2) ↔
          (reflect.samePointer m1.object m2.object = true ∧ m1.len = m2.len) := by
        constructor
        · rintro ⟨a, b, c, ha, hb, h1, h2, h3⟩
          cases ha
          cases hb
          exact ⟨by simp [reflect.samePointer, h1, h2], h3⟩
        · rintro ⟨h1, h2⟩
          cases ho1 : m1.object with
          | none => simp [reflect.samePointer, ho1] at h1
          | some a =>
            cases ho2 : m2.object with
            | none => simp [reflect.samePointer, ho1, ho2] at h1
            | some b =>
              have hab : a = b := by simpa [reflect.samePointer, ho1, ho2] using h1
              exact ⟨m1, m2, a, rfl, rfl, ho1, by rw [ho2, hab], h2⟩
      rw [hpairs, hsame, ← entries_alike_iff]
      simp only [reflect.DeepEqual, Bool.and_eq_true, Bool.or_eq_true, decide_eq_true_eq,
        deepEntriesEqual_iff, List.not_mem_nil, not_false_eq_true, true_implies,
        Option.isSome_some, true_and, GoMap.len]
      tauto

theorem deepValueEqual_plain (v w : GoValue) (hv : v.isPlain = true) :
    reflect.deepValueEqual v w = true ↔ w = v := by
  cases v <;> simp only [GoValue.isPlain, Bool.false_eq_true] at hv <;> cases w <;>
    simp only [reflect.deepValueEqual, reduceCtorEq, Bool.false_eq_true, beq_iff_eq,
      GoValue.bool.injEq, GoValue.string.injEq, GoValue.int64.injEq, GoValue.uint64.injEq] <;>
    exact eq_comm


/-! ## The extension predicate -/

theorem verifyTxAuthSimple_eq_none (E X C : AuthenticationExtensions) :
    verifyTxAuthSimple E X C = none ↔ DeeplyEqual E C := by
  unfold verifyTxAuthSimple DeeplyEqual
  rw [← deepEqual_iff]
  cases reflect.DeepEqual E C <;> simp

theorem txAuthSimpleExtensions_eq (t : String) :
    txAuthSimpleExtensions t = some ⟨none, [("txAuthSimple", GoValue.string t)]⟩ :=
  rfl

theorem txAuthSimpleExtensions_injective (t1 t2 : String)
    (h : txAuthSimpleExtensions t1 = txAuthSimpleExtensions t2) : t1 = t2 := by
  simpa [txAuthSimpleExtensions, GoMap.assign] using h

theorem deepValueEqual_typeName (v w : GoValue) (h : reflect.deepValueEqual v w = true) :
    v.typeName = w.typeName := by
  cases v <;> cases w <;> first
    | rfl
    | (simp [reflect.deepValueEqual] at h)

theorem boundAlike_some_plain (v : GoValue) (hv : v.isPlain = true) (x : Option GoValue) :
    BoundAlike (some v) x ↔ x = some v := by
  cases x with
  | none => simp [BoundAlike]
  | some w => simp [BoundAlike, deepValueEqual_plain v w hv]

theorem boundAlike_none (x : Option GoValue) : BoundAlike none x ↔ x = none := by
  cases x <;> simp [BoundAlike]

theorem deepValueEqual_nan (bits : Nat) (w : GoValue)
    (h : reflect.float64IsNaN bits = true) :
    reflect.deepValueEqual (GoValue.float64 bits) w = false := by
  cases w <;> simp [reflect.deepValueEqual, reflect.float64Equal, h]

theorem txAuthSimple_deeplyEqual (t : String) (C : AuthenticationExtensions) :
    DeeplyEqual (txAuthSimpleExtensions t) C ↔
      ∃ m, C = some m ∧
        ∀ k, m.index k = if k = "txAuthSimple" then some (GoValue.string t) else none := by
  rw [txAuthSimpleExtensions_eq]
  cases C with
  | none => simp [DeeplyEqual]
  | some m =>
    have hsame : ¬ SameObject (some ⟨none, [("txAuthSimple", GoValue.string t)]⟩) (some m) := by
      rintro ⟨a, b, c, ha, hb, h1, h2, h3⟩
      cases ha
      cases h1
    have hpairs : DeeplyEqualPairs (some ⟨none, [("txAuthSimple", GoValue.string t)]⟩)
        (some m) ↔
        ∀ k, m.index k = if k = "txAuthSimple" then some (GoValue.string t) else none := by
      unfold DeeplyEqualPairs
      refine forall_congr' (fun k => ?_)
      by_cases hk : k = "txAuthSimple"
      · subst hk
        simp [AuthenticationExtensions.index, GoMap.index, entriesIndex,
          boundAlike_some_plain _ (rfl : (GoValue.string t).isPlain = true)]
      · have hk2 : ¬ "txAuthSimple" = k := fun h => hk h.symm
        simp [AuthenticationExtensions.index, GoMap.index, entriesIndex, hk, hk2,
          boundAlike_none]
    simp only [DeeplyEqual, Option.isSome_some, true_and, hsame, false_or, hpairs,
      Option.some.injEq, exists_eq_left']

/-- C1, as amended.  For every expected mapping `E`, every received mapping `C` and every first
argument `X`, the predicate built inside `CheckWebauthnAssertion` returns no error exactly when
`reflect.DeepEqual` holds of the two: `E` and `C` are both nil or both map objects, and they
are one map object or bind the same keys, each to deeply equal values.  Deeply equal values
have the same dynamic type; for nil, bool, string and the integers deep equality is plain
equality, with no coercion between types; a `float64` NaN is deeply equal to no value.  For
`E = {"txAuthSimple": expectedText}` in a fresh map object, as the handler builds it, the
predicate succeeds exactly when `C` is a map object with the single key `"txAuthSimple"`, bound
to the string `expectedText`. -/
theorem verifyTxAuthSimple_succeeds_iff (E X C : AuthenticationExtensions)
    (expectedText : String) :
    (verifyTxAuthSimple E X C = none ↔
      (E.isSome = C.isSome ∧ (SameObject E C ∨ DeeplyEqualPairs E C))) ∧
    (verifyTxAuthSimple (txAuthSimpleExtensions expectedText) X C = none ↔
      ∃ m, C = some m ∧
        ∀ k, m.index k =
          if k = "txAuthSimple" then some (GoValue.string expectedText) else none) ∧
    (∀ v w, reflect.deepValueEqual v w = true → v.typeName = w.typeName) ∧
    (∀ v w, v.isPlain = true → (reflect.deepValueEqual v w = true ↔ w = v)) ∧
    (∀ bits w, reflect.float64IsNaN bits = true →
      reflect.deepValueEqual (GoValue.float64 bits) w = false) := by
  refine ⟨verifyTxAuthSimple_eq_none E X C, ?_, deepValueEqual_typeName, deepValueEqual_plain,
    deepValueEqual_nan⟩
  rw [verifyTxAuthSimple_eq_none]
  exact txAuthSimple_deeplyEqual expectedText C

/-- C1, the claim as stated fails.  The nil mapping and the empty map object made by `make`
both hold no key/value pair, so they bind the same keys to the same values, yet the predicate
returns an error for them, in either order.  A mapping that binds a key to a `float64` NaN and
a copy of it in another map object bind the same keys to the same values, yet the predicate
returns an error; given one object twice it returns none. -/
theorem verifyTxAuthSimple_nil_vs_empty :
    SameKeyValuePairs none (some ⟨none, []⟩) ∧
    AuthenticationExtensions.len none = 0 ∧
    AuthenticationExtensions.len (some ⟨none, []⟩) = 0 ∧
    verifyTxAuthSimple none none (some ⟨none, []⟩) ≠ none ∧
    verifyTxAuthSimple (some ⟨none, []⟩) none none ≠ none ∧
    SameKeyValuePairs (some ⟨none, [("x", GoValue.float64 0x7ff8000000000000)]⟩)
      (some ⟨none, [("x", GoValue.float64 0x7ff8000000000000)]⟩) ∧
    verifyTxAuthSimple (some ⟨none, [("x", GoValue.float64 0x7ff8000000000000)]⟩) none
      (some ⟨none, [("x", GoValue.float64 0x7ff8000000000000)]⟩) ≠ none ∧
    verifyTxAuthSimple (some ⟨some 1, [("x", GoValue.float64 0x7ff8000000000000)]⟩) none
      (some ⟨some 1, [("x", GoValue.float64 0x7ff8000000000000)]⟩) = none := by
  refine ⟨?_, rfl, by decide, by decide, by decide, ?_, by decide, by decide⟩
  · intro k
    rfl
  · intro k
    rfl

/-! ## `CheckWebauthnAssertion` -/

theorem CheckWebauthnAssertion_trace_lookup (env : Env σ U D) (query : db.WebauthnQuery)
    (E : AuthenticationExtensions) (assertion : String) (s : World σ) :
    ∀ e ∈ (CheckWebauthnAssertion env query E assertion s).trace, e.isLookup = true := by
  unfold CheckWebauthnAssertion
  simp only []
  generalize env.GetWebauthnUser query s = u
  by_cases hu : u.1.2.isSome = true
  · simp [hu, Event.isLookup]
  · simp only [hu]
    generalize env.GetWebauthnSession "authentication" u.2 = d
    by_cases hd : d.1.2.isSome = true
    · simp [hd, Event.isLookup]
    · simp only [hd]
      generalize env.FinishLogin u.1.1 d.1.1 (verifyTxAuthSimple E) assertion d.2 = f
      by_cases hf : f.1.isSome = true <;> simp [hf, Event.isLookup]

/-- C5.  `CheckWebauthnAssertion` runs its three stages in order and stops at the first failure.
When `GetWebauthnUser(query)` fails, that error is returned and neither the session store nor
the engine is called.  Otherwise, when `GetWebauthnSession("authentication", r.Request)` fails,
that error is returned and `FinishLogin` is not called.  Otherwise `FinishLogin` is called with
the resolved user, the session data, the extension predicate and the raw assertion, and its
error is returned unchanged.  The function returns no error exactly when all three calls
returned none. -/
theorem CheckWebauthnAssertion_stages (env : Env σ U D) (query : db.WebauthnQuery)
    (expectedExtensions : AuthenticationExtensions) (assertion : String) (s : World σ) :
    let u := env.GetWebauthnUser query s
    let d := env.GetWebauthnSession "authentication" u.2
    let f := env.FinishLogin u.1.1 d.1.1 (verifyTxAuthSimple expectedExtensions) assertion d.2
    let r := CheckWebauthnAssertion env query expectedExtensions assertion s
    (u.1.2 ≠ none → r.ret = u.1.2 ∧ r.world = u.2 ∧
      r.trace = [Event.GetWebauthnUser query u.1.2]) ∧
    (u.1.2 = none → d.1.2 ≠ none → r.ret = d.1.2 ∧ r.world = d.2 ∧
      r.trace = [Event.GetWebauthnUser query none,
        Event.GetWebauthnSession "authentication" d.1.2]) ∧
    (u.1.2 = none → d.1.2 = none → r.ret = f.1 ∧ r.world = f.2 ∧
      r.trace = [Event.GetWebauthnUser query none,
        Event.GetWebauthnSession "authentication" none, Event.FinishLogin assertion f.1]) ∧
    (r.ret = none ↔ u.1.2 = none ∧ d.1.2 = none ∧ f.1 = none) := by
  simp only []
  unfold CheckWebauthnAssertion
  simp only []
  generalize env.GetWebauthnUser query s = u
  obtain ⟨⟨wu, eu⟩, su⟩ := u
  cases eu with
  | some e => simp
  | none =>
    simp only [Option.isSome_none, Bool.false_eq_true, if_false]
    generalize env.GetWebauthnSession "authentication" su = d
    obtain ⟨⟨sd, ed⟩, s2⟩ := d
    cases ed with
    | some e => simp
    | none =>
      simp only [Option.isSome_none, Bool.false_eq_true, if_false]
      generalize env.FinishLogin wu sd (verifyTxAuthSimple expectedExtensions) assertion s2 = f
      obtain ⟨ef, s3⟩ := f
      cases ef <;> simp

/-! ## The paths through `webauthnSecure` -/

/-- The four ways the block under `if isEnabled` can end. -/
theorem check_cases (env : Env σ U D) (getAuthnText : World σ → String × World σ)
    (userID : Int) (s : World σ) :
    (∃ a e s1, (webauthnSecure.check env getAuthnText userID s).ret = true ∧
      (webauthnSecure.check env getAuthnText userID s).trace =
        [Event.Get_WithErr "assertion" a e, Event.HandleError e true] ∧
      (webauthnSecure.check env getAuthnText userID s).world = (env.HandleError e s1).2 ∧
      (webauthnSecure.check env getAuthnText userID s).afterAuthnText = []) ∨
    (∃ a e s3, (env.HandleAnyErrors (getAuthnText s3).2).1 = true ∧
      (webauthnSecure.check env getAuthnText userID s).ret = true ∧
      (webauthnSecure.check env getAuthnText userID s).trace =
        [Event.Get_WithErr "assertion" a e, Event.HandleError e false,
         Event.getAuthnText (getAuthnText s3).1, Event.HandleAnyErrors true] ∧
      (webauthnSecure.check env getAuthnText userID s).world =
        (env.HandleAnyErrors (getAuthnText s3).2).2 ∧
      (webauthnSecure.check env getAuthnText userID s).afterAuthnText = [(getAuthnText s3).2]) ∨
    (∃ a e s3 s5 s6, (env.HandleAnyErrors (getAuthnText s3).2).1 = false ∧
      (env.HandleError_WithStatus (CheckWebauthnAssertion env (db.QueryByUserID userID)
              (txAuthSimpleExtensions (getAuthnText s3).1) a s5).ret http.StatusBadRequest s6).1
        = true ∧
      (webauthnSecure.check env getAuthnText userID s).ret = true ∧
      (webauthnSecure.check env getAuthnText userID s).trace =
        [Event.Get_WithErr "assertion" a e, Event.HandleError e false,
         Event.getAuthnText (getAuthnText s3).1, Event.HandleAnyErrors false,
         Event.CheckWebauthnAssertion (db.QueryByUserID userID)
           (txAuthSimpleExtensions (getAuthnText s3).1) a]
        ++ (CheckWebauthnAssertion env (db.QueryByUserID userID)
              (txAuthSimpleExtensions (getAuthnText s3).1) a s5).trace
        ++ [Event.HandleError_WithStatus (CheckWebauthnAssertion env (db.QueryByUserID userID)
              (txAuthSimpleExtensions (getAuthnText s3).1) a s5).ret http.StatusBadRequest true] ∧
      (webauthnSecure.check env getAuthnText userID s).world =
        (env.HandleError_WithStatus (CheckWebauthnAssertion env (db.QueryByUserID userID)
              (txAuthSimpleExtensions (getAuthnText s3).1) a s5).ret http.StatusBadRequest s6).2 ∧
      (webauthnSecure.check env getAuthnText userID s).afterAuthnText = [(getAuthnText s3).2]) ∨
    (∃ a e s3 s5 s6, (env.HandleAnyErrors (getAuthnText s3).2).1 = false ∧
      (env.HandleError_WithStatus (CheckWebauthnAssertion env (db.QueryByUserID userID)
              (txAuthSimpleExtensions (getAuthnText s3).1) a s5).ret http.StatusBadRequest s6).1
        = false ∧
      (webauthnSecure.check env getAuthnText userID s).ret = false ∧
      (webauthnSecure.check env getAuthnText userID s).world = env.Refill
        (env.HandleError_WithStatus (CheckWebauthnAssertion env (db.QueryByUserID userID)
              (txAuthSimpleExtensions (getAuthnText s3).1) a s5).ret http.StatusBadRequest s6).2 ∧
      (webauthnSecure.check env getAuthnText userID s).trace =
        [Event.Get_WithErr "assertion" a e, Event.HandleError e false,
         Event.getAuthnText (getAuthnText s3).1, Event.HandleAnyErrors false,
         Event.CheckWebauthnAssertion (db.QueryByUserID userID)
           (txAuthSimpleExtensions (getAuthnText s3).1) a]
        ++ (CheckWebauthnAssertion env (db.QueryByUserID userID)
              (txAuthSimpleExtensions (getAuthnText s3).1) a s5).trace
        ++ [Event.HandleError_WithStatus (CheckWebauthnAssertion env (db.QueryByUserID userID)
              (txAuthSimpleExtensions (getAuthnText s3).1) a s5).ret http.StatusBadRequest false,
            Event.Refill] ∧
      (webauthnSecure.check env getAuthnText userID s).afterAuthnText =
        [(getAuthnText s3).2]) := by
  unfold webauthnSecure.check
  simp only []
  generalize env.Get_WithErr "assertion" s = a
  generalize hc3 : env.HandleError a.1.2 a.2 = c3
  by_cases h3 : c3.1 = true
  · left
    exact ⟨a.1.1, a.1.2, a.2, by simp [h3, hc3]⟩
  · right
    simp only [h3, Bool.false_eq_true, if_false]
    have h3f : c3.1 = false := by simpa using h3
    by_cases h4 : (env.HandleAnyErrors (getAuthnText c3.2).2).1 = true
    · left
      exact ⟨a.1.1, a.1.2, c3.2, h4, by simp [h4, h3f]⟩
    · right
      have h4f : (env.HandleAnyErrors (getAuthnText c3.2).2).1 = false := by simpa using h4
      simp only [h4, Bool.false_eq_true, if_false]
      by_cases h5 : (env.HandleError_WithStatus (CheckWebauthnAssertion env
              (db.QueryByUserID userID) (txAuthSimpleExtensions (getAuthnText c3.2).1) a.1.1
              (env.HandleAnyErrors (getAuthnText c3.2).2).2).ret http.StatusBadRequest
              (CheckWebauthnAssertion env (db.QueryByUserID userID)
              (txAuthSimpleExtensions (getAuthnText c3.2).1) a.1.1
              (env.HandleAnyErrors (getAuthnText c3.2).2).2).world).1 = true
      · left
        exact ⟨a.1.1, a.1.2, c3.2, (env.HandleAnyErrors (getAuthnText c3.2).2).2, _, h4f, h5,
          by simp [h5, h4f, h3f]⟩
      · right
        have h5f := by simpa using h5
        exact ⟨a.1.1, a.1.2, c3.2, (env.HandleAnyErrors (getAuthnText c3.2).2).2, _, h4f, h5f,
          by simp [h5f, h4f, h3f]⟩

/-- The five ways `webauthnSecure` can end, the block under `if isEnabled` taken as a whole. -/
theorem webauthnSecure_cases (wfirewall : WebauthnFirewall) (env : Env σ U D)
    (getAuthnText : World σ → String × World σ) (s : World σ) :
    ((env.HandleAnyErrors s).1 = true ∧
      (webauthnSecure wfirewall env getAuthnText s).trace = [Event.HandleAnyErrors true] ∧
      (webauthnSecure wfirewall env getAuthnText s).afterAuthnText = []) ∨
    (∃ uid e, (env.HandleAnyErrors s).1 = false ∧
      (webauthnSecure wfirewall env getAuthnText s).trace =
        [Event.HandleAnyErrors false, Event.GetUserID uid e, Event.HandleError e true] ∧
      (webauthnSecure wfirewall env getAuthnText s).afterAuthnText = []) ∨
    (∃ uid e s2, (env.HandleAnyErrors s).1 = false ∧
      (env.IsUserEnabled (db.QueryByUserID uid) s2).1 = false ∧
      (webauthnSecure wfirewall env getAuthnText s).world =
        env.ServeHTTP (env.IsUserEnabled (db.QueryByUserID uid) s2).2 ∧
      (webauthnSecure wfirewall env getAuthnText s).trace =
        [Event.HandleAnyErrors false, Event.GetUserID uid e, Event.HandleError e false,
         Event.IsUserEnabled (db.QueryByUserID uid) false, Event.ServeHTTP] ∧
      (webauthnSecure wfirewall env getAuthnText s).afterAuthnText = []) ∨
    (∃ uid e s2, (env.HandleAnyErrors s).1 = false ∧
      (webauthnSecure.check env getAuthnText uid s2).ret = true ∧
      (webauthnSecure wfirewall env getAuthnText s).world =
        (webauthnSecure.check env getAuthnText uid s2).world ∧
      (webauthnSecure wfirewall env getAuthnText s).trace =
        [Event.HandleAnyErrors false, Event.GetUserID uid e, Event.HandleError e false,
         Event.IsUserEnabled (db.QueryByUserID uid) true]
        ++ (webauthnSecure.check env getAuthnText uid s2).trace ∧
      (webauthnSecure wfirewall env getAuthnText s).afterAuthnText =
        (webauthnSecure.check env getAuthnText uid s2).afterAuthnText) ∨
    (∃ uid e s2, (env.HandleAnyErrors s).1 = false ∧
      (webauthnSecure.check env getAuthnText uid s2).ret = false ∧
      (webauthnSecure wfirewall env getAuthnText s).world =
        env.ServeHTTP (webauthnSecure.check env getAuthnText uid s2).world ∧
      (webauthnSecure wfirewall env getAuthnText s).trace =
        [Event.HandleAnyErrors false, Event.GetUserID uid e, Event.HandleError e false,
         Event.IsUserEnabled (db.QueryByUserID uid) true]
        ++ (webauthnSecure.check env getAuthnText uid s2).trace ++ [Event.ServeHTTP] ∧
      (webauthnSecure wfirewall env getAuthnText s).afterAuthnText =
        (webauthnSecure.check env getAuthnText uid s2).afterAuthnText) := by
  unfold webauthnSecure
  simp only []
  generalize env.HandleAnyErrors s = c1
  by_cases h1 : c1.1 = true
  · left
    simp [h1]
  · right
    have h1f : c1.1 = false := by simpa using h1
    simp only [h1, Bool.false_eq_true, if_false]
    generalize env.GetUserID (preamble wfirewall c1.2) = g
    generalize env.HandleError g.1.2 g.2 = c2
    by_cases h2 : c2.1 = true
    · left
      exact ⟨g.1.1, g.1.2, by simp [h2, h1f]⟩
    · right
      have h2f : c2.1 = false := by simpa using h2
      simp only [h2, Bool.false_eq_true, if_false]
      by_cases hen : (env.IsUserEnabled (db.QueryByUserID g.1.1) c2.2).1 = true
      · right
        simp only [hen, if_true]
        by_cases hb : (webauthnSecure.check env getAuthnText g.1.1
            (env.IsUserEnabled (db.QueryByUserID g.1.1) c2.2).2).ret = true
        · left
          exact ⟨g.1.1, g.1.2, _, trivial, hb, by simp [hb, h1f, h2f]⟩
        · right
          have hbf := by simpa using hb
          exact ⟨g.1.1, g.1.2, _, trivial, hbf, by simp [hbf, h1f, h2f]⟩
      · left
        have henf := by simpa using hen
        exact ⟨g.1.1, g.1.2, c2.2, trivial, henf, by simp [henf, h1f, h2f]⟩

/-! ## Lists of calls -/

theorem lookup_any_isReport (vt : List Event) (h : ∀ e ∈ vt, e.isLookup = true) :
    vt.any Event.isReport = false := by
  rw [List.any_eq_false]
  intro e he
  have := h e he
  cases e <;> simp_all [Event.isLookup, Event.isReport]

theorem lookup_count_ServeHTTP (vt : List Event) (h : ∀ e ∈ vt, e.isLookup = true) :
    vt.count Event.ServeHTTP = 0 := by
  rw [List.count_eq_zero]
  intro he
  have := h _ he
  simp [Event.isLookup] at this

theorem lookup_stopsAtReport (vt rest : List Event) (h : ∀ e ∈ vt, e.isLookup = true) :
    stopsAtReport (vt ++ rest) = stopsAtReport rest := by
  induction vt with
  | nil => rfl
  | cons v vs ih =>
    have hv : v.isLookup = true := h v (List.mem_cons_self _ _)
    have hr : v.isReport = false := by cases v <;> simp_all [Event.isLookup, Event.isReport]
    simp only [List.cons_append, stopsAtReport, hr, Bool.false_eq_true, if_false]
    exact ih (fun e he => h e (List.mem_cons_of_mem _ he))

theorem lookup_authnTextRejected (vt rest : List Event) (h : ∀ e ∈ vt, e.isLookup = true) :
    authnTextRejected (vt ++ rest) = authnTextRejected rest := by
  induction vt with
  | nil => rfl
  | cons v vs ih =>
    have hv : v.isLookup = true := h v (List.mem_cons_self _ _)
    have ih2 := ih (fun e he => h e (List.mem_cons_of_mem _ he))
    cases v <;> simp_all [Event.isLookup, authnTextRejected]

theorem stopsAtReport_spec (t : List Event) (h : stopsAtReport t = true) :
    ∀ pre e post, t = pre ++ e :: post → e.isReport = true → post = [] := by
  induction t with
  | nil => intro pre e post h1; simp at h1
  | cons x xs ih =>
    intro pre e post h1 he
    cases pre with
    | nil =>
      simp only [List.nil_append, List.cons.injEq] at h1
      obtain ⟨rfl, rfl⟩ := h1
      simpa [stopsAtReport, he] using h
    | cons p ps =>
      simp only [List.cons_append, List.cons.injEq] at h1
      obtain ⟨rfl, rfl⟩ := h1
      by_cases hx : x.isReport = true
      · simp [stopsAtReport, hx] at h
      · simp only [stopsAtReport, hx] at h
        exact ih (by simpa using h) ps e post rfl he

theorem stopsAtReport_of_any_false (t : List Event) (h : t.any Event.isReport = false) :
    stopsAtReport t = true := by
  induction t with
  | nil => rfl
  | cons x xs ih =>
    simp only [List.any_cons, Bool.or_eq_false_iff] at h
    simp [stopsAtReport, h.1, ih h.2]

theorem authnTextRejected_of_infix (t : List Event) (txt : String)
    (h : [Event.getAuthnText txt, Event.HandleAnyErrors true] <:+: t) :
    authnTextRejected t = true := by
  induction t with
  | nil => simp at h
  | cons x xs ih =>
    rw [List.infix_cons_iff] at h
    rcases h with h | h
    · obtain ⟨r, hr⟩ := h
      simp only [List.cons_append, List.nil_append, List.cons.injEq] at hr
      obtain ⟨rfl, hr⟩ := hr
      cases xs with
      | nil => simp at hr
      | cons y ys =>
        simp only [List.cons.injEq] at hr
        obtain ⟨rfl, _⟩ := hr
        simp [authnTextRejected]
    · have := ih h
      cases x with
      | getAuthnText t1 =>
        cases xs with
        | nil => simp [authnTextRejected] at this
        | cons y ys =>
          cases y with
          | HandleAnyErrors b =>
            cases b
            · simpa [authnTextRejected] using this
            · simp [authnTextRejected]
          | _ => simpa [authnTextRejected] using this
      | _ => simpa [authnTextRejected] using this

/-- The outcome of one run of `webauthnSecure`, in computable form. -/
theorem webauthnSecure_outcome (wfirewall : WebauthnFirewall) (env : Env σ U D)
    (getAuthnText : World σ → String × World σ) (s : World σ) :
    ((webauthnSecure wfirewall env getAuthnText s).trace.any Event.isReport = true ∧
      (webauthnSecure wfirewall env getAuthnText s).trace.count Event.ServeHTTP = 0 ∧
      stopsAtReport (webauthnSecure wfirewall env getAuthnText s).trace = true) ∨
    ((webauthnSecure wfirewall env getAuthnText s).trace.any Event.isReport = false ∧
      (webauthnSecure wfirewall env getAuthnText s).trace.count Event.ServeHTTP = 1) := by
  rcases webauthnSecure_cases wfirewall env getAuthnText s with
    ⟨h0, h, haf0⟩ | ⟨uid, e, h0, h, haf0⟩ | ⟨uid, e, s2, h0, hen, hw, h, haf0⟩ |
    ⟨uid, e, s2, h0, hb, hw, h, haf0⟩ | ⟨uid, e, s2, h0, hb, hw, h, haf0⟩
  · left; rw [h]; simp [Event.isReport, stopsAtReport]
  · left; rw [h]; simp [Event.isReport, stopsAtReport]
  · right; rw [h]; simp [Event.isReport]
  · left
    rw [h]
    rcases check_cases env getAuthnText uid s2 with
      ⟨a, e2, s1, hr, hc, hwd, haf⟩ | ⟨a, e2, s3, h4, hr, hc, hwd, haf⟩ |
      ⟨a, e2, s3, s5, s6, h4, h6, hr, hc, hwd, haf⟩ |
      ⟨a, e2, s3, s5, s6, h4, h6, hr, hcw, hc, haf⟩
    · rw [hc]; simp [Event.isReport, stopsAtReport]
    · rw [hc]; simp [Event.isReport, stopsAtReport]
    · rw [hc]
      have hl := CheckWebauthnAssertion_trace_lookup env (db.QueryByUserID uid)
        (txAuthSimpleExtensions (getAuthnText s3).1) a s5
      simp [Event.isReport, stopsAtReport, lookup_count_ServeHTTP _ hl,
        lookup_stopsAtReport _ _ hl, List.count_cons]
    · rw [hr] at hb; cases hb
  · right
    rw [h]
    rcases check_cases env getAuthnText uid s2 with
      ⟨a, e2, s1, hr, hc, hwd, haf⟩ | ⟨a, e2, s3, h4, hr, hc, hwd, haf⟩ |
      ⟨a, e2, s3, s5, s6, h4, h6, hr, hc, hwd, haf⟩ |
      ⟨a, e2, s3, s5, s6, h4, h6, hr, hcw, hc, haf⟩
    · rw [hr] at hb; cases hb
    · rw [hr] at hb; cases hb
    · rw [hr] at hb; cases hb
    · rw [hc]
      have hl := CheckWebauthnAssertion_trace_lookup env (db.QueryByUserID uid)
        (txAuthSimpleExtensions (getAuthnText s3).1) a s5
      simp [Event.isReport, lookup_count_ServeHTTP _ hl, lookup_any_isReport _ hl,
        List.count_cons]

/-- C3.  Fail-closed: for every request, every behaviour of the stores, the engine and
`getAuthnText`, one run of the `webauthnSecure` handler ends in exactly one of two ways: an error
checkpoint (`HandleAnyErrors`, `HandleError`, `HandleError_WithStatus`) reported an error and
`ServeHTTP` was never called, or no checkpoint reported an error and `ServeHTTP` was called
exactly once.  Nothing is called after the first checkpoint that reported. -/
theorem webauthnSecure_fail_closed (wfirewall : WebauthnFirewall) (env : Env σ U D)
    (getAuthnText : World σ → String × World σ) (s : World σ) :
    (((webauthnSecure wfirewall env getAuthnText s).trace.any Event.isReport = true ∧
        (webauthnSecure wfirewall env getAuthnText s).trace.count Event.ServeHTTP = 0) ∨
      ((webauthnSecure wfirewall env getAuthnText s).trace.any Event.isReport = false ∧
        (webauthnSecure wfirewall env getAuthnText s).trace.count Event.ServeHTTP = 1)) ∧
    (∀ pre e post, (webauthnSecure wfirewall env getAuthnText s).trace = pre ++ e :: post →
      e.isReport = true → post = []) := by
  rcases webauthnSecure_outcome wfirewall env getAuthnText s with ⟨h1, h2, h3⟩ | ⟨h1, h2⟩
  · exact ⟨Or.inl ⟨h1, h2⟩, stopsAtReport_spec _ h3⟩
  · exact ⟨Or.inr ⟨h1, h2⟩, stopsAtReport_spec _ (stopsAtReport_of_any_false _ h1)⟩

theorem check_trace_no_IsUserEnabled (env : Env σ U D)
    (getAuthnText : World σ → String × World σ) (userID : Int) (s : World σ)
    (q : db.WebauthnQuery) (b : Bool) :
    Event.IsUserEnabled q b ∉ (webauthnSecure.check env getAuthnText userID s).trace := by
  intro hmem
  rcases check_cases env getAuthnText userID s with
    ⟨a, e2, s1, hr, hc, hwd, haf⟩ | ⟨a, e2, s3, h4, hr, hc, hwd, haf⟩ |
    ⟨a, e2, s3, s5, s6, h4, h6, hr, hc, hwd, haf⟩ |
    ⟨a, e2, s3, s5, s6, h4, h6, hr, hcw, hc, haf⟩
  · rw [hc] at hmem; simp at hmem
  · rw [hc] at hmem; simp at hmem
  · rw [hc] at hmem
    have hl := CheckWebauthnAssertion_trace_lookup env (db.QueryByUserID userID)
      (txAuthSimpleExtensions (getAuthnText s3).1) a s5
    simp only [List.mem_append, List.mem_cons, List.mem_singleton, reduceCtorEq,
      List.not_mem_nil, or_false, false_or] at hmem
    have := hl _ hmem
    simp [Event.isLookup] at this
  · rw [hc] at hmem
    have hl := CheckWebauthnAssertion_trace_lookup env (db.QueryByUserID userID)
      (txAuthSimpleExtensions (getAuthnText s3).1) a s5
    simp only [List.mem_append, List.mem_cons, List.mem_singleton, reduceCtorEq,
      List.not_mem_nil, or_false, false_or] at hmem
    have := hl _ hmem
    simp [Event.isLookup] at this

/-- C4.  When, in a run of the `webauthnSecure` handler, `IsUserEnabled` is consulted and returns
false (so no error was recorded beforehand and the user ID resolved), the handler calls
`ServeHTTP` exactly once, and it neither reads a form field through `Get_WithErr`, nor calls
`getAuthnText`, nor calls `CheckWebauthnAssertion`.  The run is the same for every behaviour of
the collaborators it did not consult, `Get_WithErr` among them: whether an `assertion` field is
present makes no difference. -/
theorem webauthnSecure_policy_disabled (wfirewall : WebauthnFirewall) (env : Env σ U D)
    (getAuthnText : World σ → String × World σ) (s : World σ)
    (hdisabled : ∃ q, Event.IsUserEnabled q false ∈
      (webauthnSecure wfirewall env getAuthnText s).trace) :
    (webauthnSecure wfirewall env getAuthnText s).trace.count Event.ServeHTTP = 1 ∧
    (∀ field value err, Event.Get_WithErr field value err ∉
      (webauthnSecure wfirewall env getAuthnText s).trace) ∧
    (∀ text, Event.getAuthnText text ∉ (webauthnSecure wfirewall env getAuthnText s).trace) ∧
    (∀ q E a, Event.CheckWebauthnAssertion q E a ∉
      (webauthnSecure wfirewall env getAuthnText s).trace) ∧
    (∀ (env2 : Env σ U D) (getAuthnText2 : World σ → String × World σ),
      env2.HandleAnyErrors = env.HandleAnyErrors → env2.HandleError = env.HandleError →
      env2.GetUserID = env.GetUserID → env2.IsUserEnabled = env.IsUserEnabled →
      env2.ServeHTTP = env.ServeHTTP →
      (webauthnSecure wfirewall env2 getAuthnText2 s).world =
          (webauthnSecure wfirewall env getAuthnText s).world ∧
        (webauthnSecure wfirewall env2 getAuthnText2 s).trace =
          (webauthnSecure wfirewall env getAuthnText s).trace) := by
  obtain ⟨q, hq⟩ := hdisabled
  have htrace : ∃ uid e, (webauthnSecure wfirewall env getAuthnText s).trace =
      [Event.HandleAnyErrors false, Event.GetUserID uid e, Event.HandleError e false,
       Event.IsUserEnabled (db.QueryByUserID uid) false, Event.ServeHTTP] := by
    rcases webauthnSecure_cases wfirewall env getAuthnText s with
      ⟨h0, h, haf0⟩ | ⟨uid, e, h0, h, haf0⟩ | ⟨uid, e, s2, h0, hen, hw, h, haf0⟩ |
      ⟨uid, e, s2, h0, hb, hw, h, haf0⟩ | ⟨uid, e, s2, h0, hb, hw, h, haf0⟩
    · rw [h] at hq; simp at hq
    · rw [h] at hq; simp at hq
    · exact ⟨uid, e, h⟩
    · rw [h] at hq
      simp only [List.mem_append, List.mem_cons, List.mem_singleton, reduceCtorEq,
        List.not_mem_nil, or_false, false_or, Event.IsUserEnabled.injEq, Bool.false_eq_true,
        and_false] at hq
      exact absurd hq (check_trace_no_IsUserEnabled env getAuthnText uid s2 q false)
    · rw [h] at hq
      simp only [List.mem_append, List.mem_cons, List.mem_singleton, reduceCtorEq,
        List.not_mem_nil, or_false, false_or, Event.IsUserEnabled.injEq, Bool.false_eq_true,
        and_false] at hq
      exact absurd hq (check_trace_no_IsUserEnabled env getAuthnText uid s2 q false)
  obtain ⟨uid, e, ht⟩ := htrace
  refine ⟨by rw [ht]; simp, by rw [ht]; simp, by rw [ht]; simp, by rw [ht]; simp, ?_⟩
  intro env2 getAuthnText2 e1 e2 e3 e4 e5
  unfold webauthnSecure at hq ⊢
  simp only [] at hq ⊢
  rw [e1, e2, e3, e4, e5]
  generalize env.HandleAnyErrors s = c1 at hq ⊢
  by_cases h1 : c1.1 = true
  · simp [h1]
  · simp only [h1, Bool.false_eq_true, if_false] at hq ⊢
    generalize env.GetUserID (preamble wfirewall c1.2) = g at hq ⊢
    generalize env.HandleError g.1.2 g.2 = c2 at hq ⊢
    by_cases h2 : c2.1 = true
    · simp [h2]
    · simp only [h2, Bool.false_eq_true, if_false] at hq ⊢
      by_cases hen : (env.IsUserEnabled (db.QueryByUserID g.1.1) c2.2).1 = true
      · exfalso
        simp only [hen, if_true] at hq
        have hno := check_trace_no_IsUserEnabled env getAuthnText g.1.1
          (env.IsUserEnabled (db.QueryByUserID g.1.1) c2.2).2 q false
        by_cases hb : (webauthnSecure.check env getAuthnText g.1.1
            (env.IsUserEnabled (db.QueryByUserID g.1.1) c2.2).2).ret = true
        · simp [hb, hno] at hq
        · simp [hb, hno] at hq
      · simp [hen]

/-- C6.  When, in a run of the `webauthnSecure` handler, `CheckWebauthnAssertion` returned no
error and the checkpoint on that nil error reported nothing (so step-up was enabled, the
`assertion` field was read and the checkpoint after `getAuthnText` found no error), the handler
forwards the request: `ServeHTTP` is called exactly once, as the last call, and `Refill` is
called right before it, after `Get_WithErr`, `getAuthnText` and `CheckWebauthnAssertion`.  The
world `ServeHTTP` receives is the one `Refill` returned: when `Refill` restores the originally
buffered body, that body is what is forwarded. -/
theorem webauthnSecure_verified_forwards (wfirewall : WebauthnFirewall) (env : Env σ U D)
    (getAuthnText : World σ → String × World σ) (s : World σ)
    (hok : Event.HandleError_WithStatus none http.StatusBadRequest false ∈
      (webauthnSecure wfirewall env getAuthnText s).trace) :
    (webauthnSecure wfirewall env getAuthnText s).trace.count Event.ServeHTTP = 1 ∧
    (∃ pre, (webauthnSecure wfirewall env getAuthnText s).trace =
        pre ++ [Event.Refill, Event.ServeHTTP] ∧
      Event.ServeHTTP ∉ pre ∧ Event.Refill ∉ pre ∧
      (∃ a e, Event.Get_WithErr "assertion" a e ∈ pre) ∧
      (∃ text, Event.getAuthnText text ∈ pre) ∧
      (∃ q E a, Event.CheckWebauthnAssertion q E a ∈ pre)) ∧
    (∀ (β : Type) (body : World σ → β) (orig : β), (∀ x, body (env.Refill x) = orig) →
      ∃ sF, (webauthnSecure wfirewall env getAuthnText s).world = env.ServeHTTP sF ∧
        body sF = orig) := by
  have hb := hok
  rcases webauthnSecure_cases wfirewall env getAuthnText s with
    ⟨h0, h, haf0⟩ | ⟨uid, e, h0, h, haf0⟩ | ⟨uid, e, s2, h0, hen, hw, h, haf0⟩ |
    ⟨uid, e, s2, h0, hret, hw, h, haf0⟩ | ⟨uid, e, s2, h0, hret, hw, h, haf0⟩
  · rw [h] at hb; simp at hb
  · rw [h] at hb; simp at hb
  · rw [h] at hb; simp at hb
  · exfalso
    rw [h] at hb
    rcases check_cases env getAuthnText uid s2 with
      ⟨a, e2, s1, hr, hc, hwd, haf⟩ | ⟨a, e2, s3, h4, hr, hc, hwd, haf⟩ |
      ⟨a, e2, s3, s5, s6, h4, h6, hr, hc, hwd, haf⟩ |
      ⟨a, e2, s3, s5, s6, h4, h6, hr, hcw, hc, haf⟩
    · rw [hc] at hb; simp at hb
    · rw [hc] at hb; simp at hb
    · rw [hc] at hb
      have hl := CheckWebauthnAssertion_trace_lookup env (db.QueryByUserID uid)
        (txAuthSimpleExtensions (getAuthnText s3).1) a s5
      simp only [List.mem_append, List.mem_cons, List.mem_singleton, reduceCtorEq,
        List.not_mem_nil, or_false, false_or, Event.HandleError_WithStatus.injEq] at hb
      rcases hb with hb | ⟨_, _, hb⟩
      · have := hl _ hb
        simp [Event.isLookup] at this
      · simp at hb
    · rw [hr] at hret; cases hret
  · rcases check_cases env getAuthnText uid s2 with
      ⟨a, e2, s1, hr, hc, hwd, haf⟩ | ⟨a, e2, s3, h4, hr, hc, hwd, haf⟩ |
      ⟨a, e2, s3, s5, s6, h4, h6, hr, hc, hwd, haf⟩ |
      ⟨a, e2, s3, s5, s6, h4, h6, hr, hcw, hc, haf⟩
    · rw [hr] at hret; cases hret
    · rw [hr] at hret; cases hret
    · rw [hr] at hret; cases hret
    · have hl := CheckWebauthnAssertion_trace_lookup env (db.QueryByUserID uid)
        (txAuthSimpleExtensions (getAuthnText s3).1) a s5
      have hS : Event.ServeHTTP ∉ (CheckWebauthnAssertion env (db.QueryByUserID uid)
          (txAuthSimpleExtensions (getAuthnText s3).1) a s5).trace := by
        intro hm
        have := hl _ hm
        simp [Event.isLookup] at this
      have hR : Event.Refill ∉ (CheckWebauthnAssertion env (db.QueryByUserID uid)
          (txAuthSimpleExtensions (getAuthnText s3).1) a s5).trace := by
        intro hm
        have := hl _ hm
        simp [Event.isLookup] at this
      refine ⟨?_, ?_, ?_⟩
      · rw [h, hc]
        simp [lookup_count_ServeHTTP _ hl, List.count_cons]
      · refine ⟨[Event.HandleAnyErrors false, Event.GetUserID uid e, Event.HandleError e false,
            Event.IsUserEnabled (db.QueryByUserID uid) true,
            Event.Get_WithErr "assertion" a e2, Event.HandleError e2 false,
            Event.getAuthnText (getAuthnText s3).1, Event.HandleAnyErrors false,
            Event.CheckWebauthnAssertion (db.QueryByUserID uid)
              (txAuthSimpleExtensions (getAuthnText s3).1) a]
          ++ (CheckWebauthnAssertion env (db.QueryByUserID uid)
              (txAuthSimpleExtensions (getAuthnText s3).1) a s5).trace
          ++ [Event.HandleError_WithStatus (CheckWebauthnAssertion env (db.QueryByUserID uid)
              (txAuthSimpleExtensions (getAuthnText s3).1) a s5).ret http.StatusBadRequest
              false], ?_, ?_, ?_, ?_, ?_, ?_⟩
        · rw [h, hc]; simp
        · simp [hS]
        · simp [hR]
        · exact ⟨a, e2, by simp⟩
        · exact ⟨(getAuthnText s3).1, by simp⟩
        · exact ⟨db.QueryByUserID uid, txAuthSimpleExtensions (getAuthnText s3).1, a, by simp⟩
      · intro β body orig hbody
        exact ⟨_, by rw [hw, hcw], hbody _⟩


/-- C7.  Let `recorded` tell whether an error is recorded on the request, `HandleAnyErrors`
reporting whenever one is.  In the `webauthnSecure` handler, when `getAuthnText` leaves an error
recorded on the request, the run stops before the verifier: `CheckWebauthnAssertion` is not
called and `ServeHTTP` is not called.  Conversely, whenever `CheckWebauthnAssertion` is called,
the expected extensions passed to it are exactly the single-key mapping `{"txAuthSimple": t}`,
`t` being the one value `getAuthnText` returned in this run. -/
theorem webauthnSecure_authnText (wfirewall : WebauthnFirewall) (env : Env σ U D)
    (getAuthnText : World σ → String × World σ) (s : World σ)
    (recorded : World σ → Bool)
    (hcheckpoint : ∀ s1, recorded s1 = true → (env.HandleAnyErrors s1).1 = true) :
    ((∃ w ∈ (webauthnSecure wfirewall env getAuthnText s).afterAuthnText, recorded w = true) →
      (∀ q E a, Event.CheckWebauthnAssertion q E a ∉
        (webauthnSecure wfirewall env getAuthnText s).trace) ∧
      Event.ServeHTTP ∉ (webauthnSecure wfirewall env getAuthnText s).trace) ∧
    ((∃ text, Event.getAuthnText text ∈ (webauthnSecure wfirewall env getAuthnText s).trace) ↔
      (webauthnSecure wfirewall env getAuthnText s).afterAuthnText ≠ []) ∧
    (∀ w ∈ (webauthnSecure wfirewall env getAuthnText s).afterAuthnText,
      ∃ s3, w = (getAuthnText s3).2 ∧
        Event.getAuthnText (getAuthnText s3).1 ∈
          (webauthnSecure wfirewall env getAuthnText s).trace) ∧
    (∀ q E a, Event.CheckWebauthnAssertion q E a ∈
        (webauthnSecure wfirewall env getAuthnText s).trace →
      ∃ s3, E = some ⟨none, [("txAuthSimple", GoValue.string (getAuthnText s3).1)]⟩ ∧
        Event.getAuthnText (getAuthnText s3).1 ∈
          (webauthnSecure wfirewall env getAuthnText s).trace ∧
        ∀ text, Event.getAuthnText text ∈ (webauthnSecure wfirewall env getAuthnText s).trace →
          text = (getAuthnText s3).1) := by
  suffices hsplit : (_ ∧ _) ∧ (_ ∧ _) from ⟨hsplit.1.1, hsplit.1.2, hsplit.2.1, hsplit.2.2⟩
  refine ⟨?_, ?_⟩
  · rcases webauthnSecure_cases wfirewall env getAuthnText s with
      ⟨h0, h, haf0⟩ | ⟨uid, e, h0, h, haf0⟩ | ⟨uid, e, s2, h0, hen, hw, h, haf0⟩ |
      ⟨uid, e, s2, h0, hret, hw, h, haf0⟩ | ⟨uid, e, s2, h0, hret, hw, h, haf0⟩
    · rw [h, haf0]; simp
    · rw [h, haf0]; simp
    · rw [h, haf0]; simp
    · rw [h, haf0]
      rcases check_cases env getAuthnText uid s2 with
        ⟨a, e2, s1, hr, hc, hwd, haf⟩ | ⟨a, e2, s3, h4, hr, hc, hwd, haf⟩ |
        ⟨a, e2, s3, s5, s6, h4, h6, hr, hc, hwd, haf⟩ |
        ⟨a, e2, s3, s5, s6, h4, h6, hr, hcw, hc, haf⟩
      · rw [hc, haf]; simp
      · rw [hc, haf]; simp
      · rw [hc, haf]
        refine ⟨?_, by simp⟩
        rintro ⟨w, hw2, hrec⟩
        simp only [List.mem_singleton] at hw2
        rw [hw2] at hrec
        rw [hcheckpoint _ hrec] at h4
        cases h4
      · rw [hr] at hret; cases hret
    · rw [h, haf0]
      rcases check_cases env getAuthnText uid s2 with
        ⟨a, e2, s1, hr, hc, hwd, haf⟩ | ⟨a, e2, s3, h4, hr, hc, hwd, haf⟩ |
        ⟨a, e2, s3, s5, s6, h4, h6, hr, hc, hwd, haf⟩ |
        ⟨a, e2, s3, s5, s6, h4, h6, hr, hcw, hc, haf⟩
      · rw [hr] at hret; cases hret
      · rw [hr] at hret; cases hret
      · rw [hr] at hret; cases hret
      · rw [hc, haf]
        refine ⟨?_, by simp⟩
        rintro ⟨w, hw2, hrec⟩
        simp only [List.mem_singleton] at hw2
        rw [hw2] at hrec
        rw [hcheckpoint _ hrec] at h4
        cases h4
  · rcases webauthnSecure_cases wfirewall env getAuthnText s with
      ⟨h0, h, haf0⟩ | ⟨uid, e, h0, h, haf0⟩ | ⟨uid, e, s2, h0, hen, hw, h, haf0⟩ |
      ⟨uid, e, s2, h0, hret, hw, h, haf0⟩ | ⟨uid, e, s2, h0, hret, hw, h, haf0⟩
    · rw [h, haf0]; simp
    · rw [h, haf0]; simp
    · rw [h, haf0]; simp
    · rw [h, haf0]
      rcases check_cases env getAuthnText uid s2 with
        ⟨a, e2, s1, hr, hc, hwd, haf⟩ | ⟨a, e2, s3, h4, hr, hc, hwd, haf⟩ |
        ⟨a, e2, s3, s5, s6, h4, h6, hr, hc, hwd, haf⟩ |
        ⟨a, e2, s3, s5, s6, h4, h6, hr, hcw, hc, haf⟩
      · rw [hc, haf]; simp
      · rw [hc, haf]
        refine ⟨?_, by simp⟩
        intro w hw2
        simp only [List.mem_singleton] at hw2
        exact ⟨s3, hw2, by simp⟩
      · rw [hc, haf]
        have hl := CheckWebauthnAssertion_trace_lookup env (db.QueryByUserID uid)
          (txAuthSimpleExtensions (getAuthnText s3).1) a s5
        refine ⟨?_, ?_⟩
        · intro w hw2
          simp only [List.mem_singleton] at hw2
          exact ⟨s3, hw2, by simp⟩
        · intro q E a1 hmem
          simp only [List.mem_append, List.mem_cons, List.mem_singleton, reduceCtorEq,
            List.not_mem_nil, or_false, false_or, Event.CheckWebauthnAssertion.injEq] at hmem
          rcases hmem with ⟨_, hE, _⟩ | hmem
          · refine ⟨s3, by rw [hE]; rfl, by simp, ?_⟩
            intro text ht
            simp only [List.mem_append, List.mem_cons, List.mem_singleton, reduceCtorEq,
              List.not_mem_nil, or_false, false_or, Event.getAuthnText.injEq] at ht
            rcases ht with ht | ht
            · exact ht
            · have := hl _ ht
              simp [Event.isLookup] at this
          · have := hl _ hmem
            simp [Event.isLookup] at this
      · rw [hr] at hret; cases hret
    · rw [h, haf0]
      rcases check_cases env getAuthnText uid s2 with
        ⟨a, e2, s1, hr, hc, hwd, haf⟩ | ⟨a, e2, s3, h4, hr, hc, hwd, haf⟩ |
        ⟨a, e2, s3, s5, s6, h4, h6, hr, hc, hwd, haf⟩ |
        ⟨a, e2, s3, s5, s6, h4, h6, hr, hcw, hc, haf⟩
      · rw [hr] at hret; cases hret
      · rw [hr] at hret; cases hret
      · rw [hr] at hret; cases hret
      · rw [hc, haf]
        have hl := CheckWebauthnAssertion_trace_lookup env (db.QueryByUserID uid)
          (txAuthSimpleExtensions (getAuthnText s3).1) a s5
        refine ⟨?_, ?_⟩
        · intro w hw2
          simp only [List.mem_singleton] at hw2
          exact ⟨s3, hw2, by simp⟩
        · intro q E a1 hmem
          simp only [List.mem_append, List.mem_cons, List.mem_singleton, reduceCtorEq,
            List.not_mem_nil, or_false, false_or, Event.CheckWebauthnAssertion.injEq] at hmem
          rcases hmem with ⟨_, hE, _⟩ | hmem
          · refine ⟨s3, by rw [hE]; rfl, by simp, ?_⟩
            intro text ht
            simp only [List.mem_append, List.mem_cons, List.mem_singleton, reduceCtorEq,
              List.not_mem_nil, or_false, false_or, Event.getAuthnText.injEq] at ht
            rcases ht with ht | ht
            · exact ht
            · have := hl _ ht
              simp [Event.isLookup] at this
          · have := hl _ hmem
            simp [Event.isLookup] at this

theorem CheckWebauthnAssertion_ret_of_engine (env : Env σ U D) (query : db.WebauthnQuery)
    (E : AuthenticationExtensions) (assertion : String) (s : World σ)
    (hfail : ∀ u d s1, (env.FinishLogin u d (verifyTxAuthSimple E) assertion s1).1 ≠ none) :
    (CheckWebauthnAssertion env query E assertion s).ret ≠ none := by
  unfold CheckWebauthnAssertion
  simp only []
  generalize env.GetWebauthnUser query s = u
  obtain ⟨⟨wu, eu⟩, su⟩ := u
  cases eu with
  | some e => simp
  | none =>
    simp only [Option.isSome_none, Bool.false_eq_true, if_false]
    generalize env.GetWebauthnSession "authentication" su = d
    obtain ⟨⟨sd, ed⟩, s2⟩ := d
    cases ed with
    | some e => simp
    | none =>
      simp only [Option.isSome_none, Bool.false_eq_true, if_false]
      have := hfail wu sd s2
      generalize env.FinishLogin wu sd (verifyTxAuthSimple E) assertion s2 = f at this
      obtain ⟨ef, s3⟩ := f
      cases ef with
      | some e => simp
      | none => simp at this

/-- C8, as amended.  Whenever the `webauthnSecure` handler calls `CheckWebauthnAssertion` with
expected extensions `{"txAuthSimple": t}`, the text `t` is one `getAuthnText` returned, and the
checkpoint that followed `getAuthnText` reported nothing.  So `t` is not the empty string
provided `getAuthnText` itself never returns the empty string without leaving an error recorded;
the handler makes no check of its own. -/
theorem webauthnSecure_text_nonempty (wfirewall : WebauthnFirewall) (env : Env σ U D)
    (getAuthnText : World σ → String × World σ) (s : World σ)
    (htext : ∀ s1, (env.HandleAnyErrors (getAuthnText s1).2).1 = false →
      (getAuthnText s1).1 ≠ "") :
    ∀ q t a, Event.CheckWebauthnAssertion q (txAuthSimpleExtensions t) a ∈
      (webauthnSecure wfirewall env getAuthnText s).trace →
      (∃ s3, t = (getAuthnText s3).1 ∧ (env.HandleAnyErrors (getAuthnText s3).2).1 = false) ∧
      t ≠ "" := by
  intro q t a1 hmem
  have key : ∀ uid s2, Event.CheckWebauthnAssertion q (txAuthSimpleExtensions t) a1 ∈
      (webauthnSecure.check env getAuthnText uid s2).trace →
      ∃ s3, t = (getAuthnText s3).1 ∧ (env.HandleAnyErrors (getAuthnText s3).2).1 = false := by
    intro uid s2 hm
    rcases check_cases env getAuthnText uid s2 with
      ⟨a, e2, s1, hr, hc, hwd, haf⟩ | ⟨a, e2, s3, h4, hr, hc, hwd, haf⟩ |
      ⟨a, e2, s3, s5, s6, h4, h6, hr, hc, hwd, haf⟩ |
      ⟨a, e2, s3, s5, s6, h4, h6, hr, hcw, hc, haf⟩
    · rw [hc] at hm; simp at hm
    · rw [hc] at hm; simp at hm
    · rw [hc] at hm
      have hl := CheckWebauthnAssertion_trace_lookup env (db.QueryByUserID uid)
        (txAuthSimpleExtensions (getAuthnText s3).1) a s5
      simp only [List.mem_append, List.mem_cons, List.mem_singleton, reduceCtorEq,
        List.not_mem_nil, or_false, false_or, Event.CheckWebauthnAssertion.injEq] at hm
      rcases hm with ⟨_, hE, _⟩ | hm
      · exact ⟨s3, txAuthSimpleExtensions_injective _ _ hE, h4⟩
      · have := hl _ hm
        simp [Event.isLookup] at this
    · rw [hc] at hm
      have hl := CheckWebauthnAssertion_trace_lookup env (db.QueryByUserID uid)
        (txAuthSimpleExtensions (getAuthnText s3).1) a s5
      simp only [List.mem_append, List.mem_cons, List.mem_singleton, reduceCtorEq,
        List.not_mem_nil, or_false, false_or, Event.CheckWebauthnAssertion.injEq] at hm
      rcases hm with ⟨_, hE, _⟩ | hm
      · exact ⟨s3, txAuthSimpleExtensions_injective _ _ hE, h4⟩
      · have := hl _ hm
        simp [Event.isLookup] at this
  have fin : (∃ s3, t = (getAuthnText s3).1 ∧
      (env.HandleAnyErrors (getAuthnText s3).2).1 = false) →
      (∃ s3, t = (getAuthnText s3).1 ∧ (env.HandleAnyErrors (getAuthnText s3).2).1 = false) ∧
      t ≠ "" := by
    rintro ⟨s3, ht, h4⟩
    exact ⟨⟨s3, ht, h4⟩, by rw [ht]; exact htext s3 h4⟩
  rcases webauthnSecure_cases wfirewall env getAuthnText s with
    ⟨h0, h, haf0⟩ | ⟨uid, e, h0, h, haf0⟩ | ⟨uid, e, s2, h0, hen, hw, h, haf0⟩ |
    ⟨uid, e, s2, h0, hret, hw, h, haf0⟩ | ⟨uid, e, s2, h0, hret, hw, h, haf0⟩
  · rw [h] at hmem; simp at hmem
  · rw [h] at hmem; simp at hmem
  · rw [h] at hmem; simp at hmem
  · rw [h] at hmem
    simp only [List.mem_append, List.mem_cons, List.mem_singleton, reduceCtorEq,
      List.not_mem_nil, or_false, false_or] at hmem
    exact fin (key uid s2 hmem)
  · rw [h] at hmem
    simp only [List.mem_append, List.mem_cons, List.mem_singleton, reduceCtorEq,
      List.not_mem_nil, or_false, false_or] at hmem
    exact fin (key uid s2 hmem)


/-- C2, as amended.  Take a run of the `webauthnSecure` handler in which step-up is enabled for
the identity and the extensions the authenticator signed over are not deeply equal to
`{"txAuthSimple": getAuthnText(r)}`, with an engine `FinishLogin` that fails whenever the
predicate it is given fails on the signed extensions, and a `HandleError_WithStatus` that
reports every non-nil error.  Then `ServeHTTP` is never called, and the run ends in one of
three ways.  It stops at the checkpoint after `Get_WithErr("assertion")`, or at the checkpoint
after `getAuthnText`: then `CheckWebauthnAssertion` was not called and the response is the one
that checkpoint wrote.  Or it reaches `CheckWebauthnAssertion`: then the last call is
`HandleError_WithStatus` on the verifier's error with status 400 (`http.StatusBadRequest`), the
response is the one that call wrote, and its status is 400 when `HandleError_WithStatus` sends
the status it is given. -/
theorem webauthnSecure_mismatch_rejected (wfirewall : WebauthnFirewall) (env : Env σ U D)
    (getAuthnText : World σ → String × World σ) (s : World σ)
    (signedExtensions : String → AuthenticationExtensions)
    (hengine : ∀ u d verify a s1, (∀ X, verify X (signedExtensions a) ≠ none) →
      (env.FinishLogin u d verify a s1).1 ≠ none)
    (hreport : ∀ e status s1, (env.HandleError_WithStatus (some e) status s1).1 = true)
    (henabled : ∃ q, Event.IsUserEnabled q true ∈
      (webauthnSecure wfirewall env getAuthnText s).trace)
    (hdiff : ∀ a err text,
      Event.Get_WithErr "assertion" a err ∈ (webauthnSecure wfirewall env getAuthnText s).trace →
      Event.getAuthnText text ∈ (webauthnSecure wfirewall env getAuthnText s).trace →
      ¬ DeeplyEqual (txAuthSimpleExtensions text) (signedExtensions a)) :
    Event.ServeHTTP ∉ (webauthnSecure wfirewall env getAuthnText s).trace ∧
    ((∃ e s1,
        (∀ q E a, Event.CheckWebauthnAssertion q E a ∉
          (webauthnSecure wfirewall env getAuthnText s).trace) ∧
        (webauthnSecure wfirewall env getAuthnText s).trace.getLast? =
          some (Event.HandleError e true) ∧
        (webauthnSecure wfirewall env getAuthnText s).world = (env.HandleError e s1).2) ∨
     (∃ s1,
        (∀ q E a, Event.CheckWebauthnAssertion q E a ∉
          (webauthnSecure wfirewall env getAuthnText s).trace) ∧
        (webauthnSecure wfirewall env getAuthnText s).trace.getLast? =
          some (Event.HandleAnyErrors true) ∧
        (webauthnSecure wfirewall env getAuthnText s).world = (env.HandleAnyErrors s1).2) ∨
     (∃ q E a e s1,
        Event.CheckWebauthnAssertion q E a ∈
          (webauthnSecure wfirewall env getAuthnText s).trace ∧
        (webauthnSecure wfirewall env getAuthnText s).trace.getLast? =
          some (Event.HandleError_WithStatus (some e) http.StatusBadRequest true) ∧
        (webauthnSecure wfirewall env getAuthnText s).world =
          (env.HandleError_WithStatus (some e) http.StatusBadRequest s1).2 ∧
        ((∀ e1 s2, (env.HandleError_WithStatus (some e1) http.StatusBadRequest s2).2.w.status =
            some http.StatusBadRequest) →
          (webauthnSecure wfirewall env getAuthnText s).world.w.status =
            some http.StatusBadRequest))) := by
  obtain ⟨q0, hq0⟩ := henabled
  have hver : ∀ uid a text s5, ¬ DeeplyEqual (txAuthSimpleExtensions text) (signedExtensions a) →
      ∃ e, (CheckWebauthnAssertion env (db.QueryByUserID uid)
        (txAuthSimpleExtensions text) a s5).ret = some e := by
    intro uid a text s5 hne
    have := CheckWebauthnAssertion_ret_of_engine env (db.QueryByUserID uid)
      (txAuthSimpleExtensions text) a s5 (fun u d s1 => hengine u d _ a s1 (fun X => by
        rw [Ne, verifyTxAuthSimple_eq_none]; exact hne))
    exact Option.ne_none_iff_exists'.mp this
  rcases webauthnSecure_cases wfirewall env getAuthnText s with
    ⟨h0, h, haf0⟩ | ⟨uid, e, h0, h, haf0⟩ | ⟨uid, e, s2, h0, hen, hw, h, haf0⟩ |
    ⟨uid, e, s2, h0, hret, hw, h, haf0⟩ | ⟨uid, e, s2, h0, hret, hw, h, haf0⟩
  · rw [h] at hq0; simp at hq0
  · rw [h] at hq0; simp at hq0
  · rw [h] at hq0; simp at hq0
  · rcases check_cases env getAuthnText uid s2 with
      ⟨a, e2, s1, hr, hc, hwd, haf⟩ | ⟨a, e2, s3, h4, hr, hc, hwd, haf⟩ |
      ⟨a, e2, s3, s5, s6, h4, h6, hr, hc, hwd, haf⟩ |
      ⟨a, e2, s3, s5, s6, h4, h6, hr, hcw, hc, haf⟩
    · refine ⟨by rw [h, hc]; simp, Or.inl ⟨e2, s1, by rw [h, hc]; simp, by rw [h, hc]; simp,
        by rw [hw, hwd]⟩⟩
    · refine ⟨by rw [h, hc]; simp, Or.inr (Or.inl ⟨_, by rw [h, hc]; simp,
        by rw [h, hc]; simp, by rw [hw, hwd]⟩)⟩
    · have hl := CheckWebauthnAssertion_trace_lookup env (db.QueryByUserID uid)
        (txAuthSimpleExtensions (getAuthnText s3).1) a s5
      have hS : Event.ServeHTTP ∉ (CheckWebauthnAssertion env (db.QueryByUserID uid)
          (txAuthSimpleExtensions (getAuthnText s3).1) a s5).trace := by
        intro hm
        have := hl _ hm
        simp [Event.isLookup] at this
      have hne : ¬ DeeplyEqual (txAuthSimpleExtensions (getAuthnText s3).1)
          (signedExtensions a) :=
        hdiff a e2 _ (by rw [h, hc]; simp) (by rw [h, hc]; simp)
      obtain ⟨e3, he3⟩ := hver uid a _ s5 hne
      have hworld : (webauthnSecure wfirewall env getAuthnText s).world =
          (env.HandleError_WithStatus (some e3) http.StatusBadRequest s6).2 := by
        rw [hw, hwd, he3]
      refine ⟨by rw [h, hc]; simp [hS], Or.inr (Or.inr ⟨db.QueryByUserID uid,
        txAuthSimpleExtensions (getAuthnText s3).1, a, e3, s6, by rw [h, hc]; simp, ?_, hworld,
        fun hst => by rw [hworld]; exact hst e3 s6⟩)⟩
      rw [h, hc, he3, ← List.append_assoc]
      exact List.getLast?_concat _
    · rw [hr] at hret; cases hret
  · exfalso
    rcases check_cases env getAuthnText uid s2 with
      ⟨a, e2, s1, hr, hc, hwd, haf⟩ | ⟨a, e2, s3, h4, hr, hc, hwd, haf⟩ |
      ⟨a, e2, s3, s5, s6, h4, h6, hr, hc, hwd, haf⟩ |
      ⟨a, e2, s3, s5, s6, h4, h6, hr, hcw, hc, haf⟩
    · rw [hr] at hret; cases hret
    · rw [hr] at hret; cases hret
    · rw [hr] at hret; cases hret
    · have hne : ¬ DeeplyEqual (txAuthSimpleExtensions (getAuthnText s3).1)
          (signedExtensions a) :=
        hdiff a e2 _ (by rw [h, hc]; simp) (by rw [h, hc]; simp)
      obtain ⟨e3, he3⟩ := hver uid a _ s5 hne
      rw [he3, hreport] at h6
      cases h6

/-! ## `ProxyRequest` and `optionsHandler` -/

/-- C9.  `ProxyRequest` never forwards a request with a recorded error.  When `HandleAnyErrors`
reports an error, that checkpoint is the only call: neither `Refill` nor `ServeHTTP` happens
and the world is the one the checkpoint left.  When it reports none, `Refill` is called first
and then the request is forwarded, exactly once, in the world `Refill` returned. -/
theorem ProxyRequest_guarded (wfirewall : WebauthnFirewall) (env : Env σ U D) (s : World σ) :
    (ProxyRequest wfirewall env s).trace =
      (if (env.HandleAnyErrors s).1 then [Event.HandleAnyErrors true]
       else [Event.HandleAnyErrors false, Event.Refill, Event.ServeHTTP]) ∧
    (ProxyRequest wfirewall env s).world =
      (if (env.HandleAnyErrors s).1 then (env.HandleAnyErrors s).2
       else env.ServeHTTP
        (if wfirewall.verbose then logRequest (env.Refill (env.HandleAnyErrors s).2)
         else env.Refill (env.HandleAnyErrors s).2)) := by
  unfold ProxyRequest proxyRequest
  simp only []
  generalize env.HandleAnyErrors s = c
  by_cases h : c.1 = true
  · simp [h]
  · have hf : c.1 = false := by simpa using h
    simp [hf]

theorem intercalate_go (sep : String) (acc : String) (l : List String) :
    String.intercalate.go acc sep l =
      acc ++ (match l with | [] => "" | _ :: _ => sep ++ strings.Join l sep) := by
  induction l generalizing acc with
  | nil => simp [String.intercalate.go]
  | cons a rest ih =>
    rw [String.intercalate.go, ih]
    cases rest with
    | nil => simp [strings.Join, String.append_assoc]
    | cons b rest2 => simp [strings.Join, String.append_assoc]

theorem strings_Join_eq (l : List String) (sep : String) :
    strings.Join l sep = sep.intercalate l := by
  cases l with
  | nil => rfl
  | cons a rest =>
    rw [String.intercalate, intercalate_go]
    cases rest with
    | nil => simp [strings.Join]
    | cons b rest2 => simp [strings.Join, String.append_assoc]

/-- C10.  For every list of allowed methods and every configured frontend address, on a
response writer nothing was written to yet, the handler returned by
`optionsHandler(allowMethods...)` leaves status 204, no body, and the headers
`Access-Control-Allow-Credentials` = "true", `Access-Control-Allow-Headers` =
"Origin,Content-Type,Accept,Authorization", `Access-Control-Allow-Methods` = the allowed
methods in the given order joined by "," (the empty string for the empty list) and
`Access-Control-Allow-Origin` = the configured `FrontendAddress`.  It calls no collaborator:
the request is never forwarded. -/
theorem optionsHandler_response (wfirewall : WebauthnFirewall) (allowMethods : List String)
    (s : World σ) (hfresh : s.w.status = none ∧ s.w.body = []) :
    (optionsHandler wfirewall allowMethods s).world.w.status = some 204 ∧
    (optionsHandler wfirewall allowMethods s).world.w.body = [] ∧
    http.Header.Get (optionsHandler wfirewall allowMethods s).world.w.header
      "Access-Control-Allow-Credentials" = "true" ∧
    http.Header.Get (optionsHandler wfirewall allowMethods s).world.w.header
      "Access-Control-Allow-Headers" = "Origin,Content-Type,Accept,Authorization" ∧
    http.Header.Get (optionsHandler wfirewall allowMethods s).world.w.header
      "Access-Control-Allow-Methods" = ",".intercalate allowMethods ∧
    http.Header.Get (optionsHandler wfirewall [] s).world.w.header
      "Access-Control-Allow-Methods" = "" ∧
    http.Header.Get (optionsHandler wfirewall allowMethods s).world.w.header
      "Access-Control-Allow-Origin" = wfirewall.FrontendAddress ∧
    (optionsHandler wfirewall allowMethods s).trace = [] ∧
    (optionsHandler wfirewall allowMethods s).world.hidden = s.hidden := by
  obtain ⟨hst, hbody⟩ := hfresh
  have hjoin : ",".intercalate ([] : List String) = "" := rfl
  unfold optionsHandler preamble logRequest
  cases wfirewall.verbose <;>
    simp [http.ResponseWriter.WriteHeader, hst, hbody, http.Header.Get, http.Header.Set,
      Finmap.lookup_insert, Finmap.lookup_insert_of_ne, strings_Join_eq, http.StatusNoContent,
      hjoin]

/-! ## Runs on concrete requests -/

theorem demo_HandleError_WithStatus_reports (e : GoError) (status : Nat)
    (s1 : World demo.Gate) : (demo.env.HandleError_WithStatus (some e) status s1).1 = true := by
  show (demo.HandleAnyErrors (demo.recordError e (some status) s1)).1 = true
  unfold demo.HandleAnyErrors demo.recordError
  cases h : s1.hidden.recorded with
  | none => simp
  | some p => simp [h]

theorem demo_withdrawText_nonempty (s1 : World demo.Gate)
    (h : (demo.env.HandleAnyErrors (demo.withdrawText s1).2).1 = false) :
    (demo.withdrawText s1).1 ≠ "" := by
  change (demo.HandleAnyErrors (demo.withdrawText s1).2).1 = false at h
  unfold demo.withdrawText demo.Get_WithErr at h ⊢
  cases hl : s1.hidden.original.lookup "amount" with
  | none =>
    exfalso
    simp only [hl] at h
    unfold demo.HandleAnyErrors demo.recordError at h
    cases hr : s1.hidden.recorded with
    | none => simp [hr] at h
    | some p => simp [hr] at h
  | some v =>
    simp only [hl, Option.isSome_none, Bool.false_eq_true, if_false]
    intro hempty
    have := congrArg String.length hempty
    simp only [String.length_append] at this
    have h10 : "withdraw $".length = 10 := by decide
    rw [h10] at this
    have h0 : "".length = 0 := by decide
    omega

/-- C2, the claim as stated fails.  Step-up is enabled for identity 7, the assertion was signed
over `{"txAuthSimple": "withdraw $500"}`, `getAuthnText` returns the empty text and records an
error to be surfaced with status 422, and the engine fails whenever the predicate fails.  The
extensions differ from `{"txAuthSimple": getAuthnText(r)}` and the request is not forwarded,
but the run stops at the checkpoint after `getAuthnText`: `HandleError_WithStatus` is never
called and the response status is 422, not 400. -/
theorem webauthnSecure_mismatch_other_status :
    (webauthnSecure demo.firewall demo.env demo.rejectingText
        (demo.request [("assertion", "withdraw $500")] [7])).trace =
      [Event.HandleAnyErrors false, Event.GetUserID 7 none, Event.HandleError none false,
        Event.IsUserEnabled (db.QueryByUserID 7) true,
        Event.Get_WithErr "assertion" "withdraw $500" none, Event.HandleError none false,
        Event.getAuthnText "", Event.HandleAnyErrors true] ∧
    demo.signed "withdraw $500" ≠ txAuthSimpleExtensions "" ∧
    ¬ DeeplyEqual (txAuthSimpleExtensions "") (demo.signed "withdraw $500") ∧
    (∀ u d verify a s1, (∀ X, verify X (demo.signed a) ≠ none) →
      (demo.env.FinishLogin u d verify a s1).1 ≠ none) ∧
    Event.ServeHTTP ∉
      (webauthnSecure demo.firewall demo.env demo.rejectingText
        (demo.request [("assertion", "withdraw $500")] [7])).trace ∧
    (webauthnSecure demo.firewall demo.env demo.rejectingText
        (demo.request [("assertion", "withdraw $500")] [7])).world.w.status = some 422 ∧
    (webauthnSecure demo.firewall demo.env demo.rejectingText
        (demo.request [("assertion", "withdraw $500")] [7])).world.w.status ≠
      some http.StatusBadRequest :=
  ⟨by decide, by decide, by rw [DeeplyEqual, ← deepEqual_iff]; decide,
    fun _ _ _ _ _ h => h none, by decide, by decide, by decide⟩

/-- C2, the amended statement at a concrete request: identity 7 with step-up enabled asks for
"withdraw $50" and presents an assertion signed over "withdraw $500". -/
theorem webauthnSecure_mismatch_rejected_witness :
    Event.IsUserEnabled (db.QueryByUserID 7) true ∈
      (webauthnSecure demo.firewall demo.env demo.withdrawText
        (demo.request [("amount", "50"), ("assertion", "withdraw $500")] [7])).trace ∧
    ¬ DeeplyEqual (txAuthSimpleExtensions "withdraw $50") (demo.signed "withdraw $500") ∧
    Event.ServeHTTP ∉
      (webauthnSecure demo.firewall demo.env demo.withdrawText
        (demo.request [("amount", "50"), ("assertion", "withdraw $500")] [7])).trace ∧
    (∃ e, (webauthnSecure demo.firewall demo.env demo.withdrawText
        (demo.request [("amount", "50"), ("assertion", "withdraw $500")] [7])).trace.getLast? =
      some (Event.HandleError_WithStatus (some e) http.StatusBadRequest true)) ∧
    (webauthnSecure demo.firewall demo.env demo.withdrawText
        (demo.request [("amount", "50"), ("assertion", "withdraw $500")] [7])).world.w.status =
      some http.StatusBadRequest := by
  have henabled : Event.IsUserEnabled (db.QueryByUserID 7) true ∈
      (webauthnSecure demo.firewall demo.env demo.withdrawText
        (demo.request [("amount", "50"), ("assertion", "withdraw $500")] [7])).trace := by
    decide
  have hcall : Event.CheckWebauthnAssertion (db.QueryByUserID 7)
      (txAuthSimpleExtensions "withdraw $50") "withdraw $500" ∈
      (webauthnSecure demo.firewall demo.env demo.withdrawText
        (demo.request [("amount", "50"), ("assertion", "withdraw $500")] [7])).trace := by
    decide
  have hne : ¬ DeeplyEqual (txAuthSimpleExtensions "withdraw $50")
      (demo.signed "withdraw $500") := by
    rw [DeeplyEqual, ← deepEqual_iff]
    decide
  have htrace : (webauthnSecure demo.firewall demo.env demo.withdrawText
        (demo.request [("amount", "50"), ("assertion", "withdraw $500")] [7])).trace =
      [Event.HandleAnyErrors false, Event.GetUserID 7 none, Event.HandleError none false,
        Event.IsUserEnabled (db.QueryByUserID 7) true,
        Event.Get_WithErr "assertion" "withdraw $500" none, Event.HandleError none false,
        Event.getAuthnText "withdraw $50", Event.HandleAnyErrors false,
        Event.CheckWebauthnAssertion (db.QueryByUserID 7)
          (txAuthSimpleExtensions "withdraw $50") "withdraw $500",
        Event.GetWebauthnUser (db.QueryByUserID 7) none,
        Event.GetWebauthnSession "authentication" none,
        Event.FinishLogin "withdraw $500"
          (verifyTxAuthSimple (txAuthSimpleExtensions "withdraw $50") none
            (demo.signed "withdraw $500")),
        Event.HandleError_WithStatus
          (verifyTxAuthSimple (txAuthSimpleExtensions "withdraw $50") none
            (demo.signed "withdraw $500")) http.StatusBadRequest true] := by
    decide
  have h := webauthnSecure_mismatch_rejected demo.firewall demo.env demo.withdrawText
    (demo.request [("amount", "50"), ("assertion", "withdraw $500")] [7]) demo.signed
    (fun _ _ _ _ _ h => h none) demo_HandleError_WithStatus_reports ⟨_, henabled⟩
    (fun a err text ha ht => by
      rw [htrace] at ha ht
      simp only [List.mem_cons, List.mem_singleton, reduceCtorEq, List.not_mem_nil, or_false,
        false_or, Event.Get_WithErr.injEq, Event.getAuthnText.injEq] at ha ht
      rw [ha.2.1, ht]
      exact hne)
  refine ⟨henabled, hne, h.1, ?_, by decide⟩
  rcases h.2 with ⟨_, _, hno, _, _⟩ | ⟨_, hno, _, _⟩ | ⟨_, _, _, e, _, _, hlast, _, _⟩
  · exact absurd hcall (hno _ _ _)
  · exact absurd hcall (hno _ _ _)
  · exact ⟨e, hlast⟩

/-- C4 at a concrete request: identity 7 without step-up, no `assertion` field. -/
theorem webauthnSecure_policy_disabled_witness :
    Event.IsUserEnabled (db.QueryByUserID 7) false ∈
      (webauthnSecure demo.firewall demo.env demo.withdrawText
        (demo.request [("amount", "50")] [])).trace ∧
    (webauthnSecure demo.firewall demo.env demo.withdrawText
        (demo.request [("amount", "50")] [])).trace.count Event.ServeHTTP = 1 :=
  ⟨by decide,
    (webauthnSecure_policy_disabled demo.firewall demo.env demo.withdrawText
      (demo.request [("amount", "50")] []) ⟨db.QueryByUserID 7, by decide⟩).1⟩

/-- C6 at a concrete request: identity 7 with step-up enabled asks for "withdraw $50" and
presents an assertion signed over "withdraw $50"; the backend receives the body as sent. -/
theorem webauthnSecure_verified_forwards_witness :
    Event.HandleError_WithStatus none http.StatusBadRequest false ∈
      (webauthnSecure demo.firewall demo.env demo.withdrawText
        (demo.request [("amount", "50"), ("assertion", "withdraw $50")] [7])).trace ∧
    (webauthnSecure demo.firewall demo.env demo.withdrawText
        (demo.request [("amount", "50"), ("assertion", "withdraw $50")] [7])).trace.count
      Event.ServeHTTP = 1 ∧
    (webauthnSecure demo.firewall demo.env demo.withdrawText
        (demo.request [("amount", "50"), ("assertion", "withdraw $50")] [7])).world.hidden.received
      = [[("amount", "50"), ("assertion", "withdraw $50")]] :=
  ⟨by decide,
    (webauthnSecure_verified_forwards demo.firewall demo.env demo.withdrawText
      (demo.request [("amount", "50"), ("assertion", "withdraw $50")] [7]) (by decide)).1,
    by decide⟩

/-- C8, the claim as stated fails: `getAuthnText` returns the empty string and records no
error, and the handler passes `{"txAuthSimple": ""}` to `CheckWebauthnAssertion`; with an
assertion signed over the empty text the request is then forwarded. -/
theorem webauthnSecure_empty_text_compared :
    (webauthnSecure demo.firewall demo.env demo.emptyText
        (demo.request [("assertion", "")] [7])).trace =
      [Event.HandleAnyErrors false, Event.GetUserID 7 none, Event.HandleError none false,
        Event.IsUserEnabled (db.QueryByUserID 7) true,
        Event.Get_WithErr "assertion" "" none, Event.HandleError none false,
        Event.getAuthnText "", Event.HandleAnyErrors false,
        Event.CheckWebauthnAssertion (db.QueryByUserID 7) (txAuthSimpleExtensions "") "",
        Event.GetWebauthnUser (db.QueryByUserID 7) none,
        Event.GetWebauthnSession "authentication" none, Event.FinishLogin "" none,
        Event.HandleError_WithStatus none http.StatusBadRequest false,
        Event.Refill, Event.ServeHTTP] ∧
    txAuthSimpleExtensions "" = some ⟨none, [("txAuthSimple", GoValue.string "")]⟩ :=
  ⟨by decide, rfl⟩

/-- C8, the amended statement at a concrete request, with a text function that returns
"withdraw $" followed by the amount, or records an error when the amount is missing. -/
theorem webauthnSecure_text_nonempty_witness :
    Event.CheckWebauthnAssertion (db.QueryByUserID 7) (txAuthSimpleExtensions "withdraw $50")
        "withdraw $50" ∈
      (webauthnSecure demo.firewall demo.env demo.withdrawText
        (demo.request [("amount", "50"), ("assertion", "withdraw $50")] [7])).trace ∧
    "withdraw $50" ≠ "" :=
  ⟨by decide,
    (webauthnSecure_text_nonempty demo.firewall demo.env demo.withdrawText
      (demo.request [("amount", "50"), ("assertion", "withdraw $50")] [7])
      demo_withdrawText_nonempty (db.QueryByUserID 7) "withdraw $50" "withdraw $50"
      (by decide)).2⟩

/-- C10 at a concrete request: the preflight handler for `GET` and `POST`. -/
theorem optionsHandler_response_witness :
    (optionsHandler demo.firewall ["GET", "POST"]
        (demo.request [] [])).world.w.status = some 204 ∧
    http.Header.Get (optionsHandler demo.firewall ["GET", "POST"]
        (demo.request [] [])).world.w.header "Access-Control-Allow-Methods" = "GET,POST" :=
  ⟨(optionsHandler_response demo.firewall ["GET", "POST"] (demo.request [] [])
      ⟨rfl, rfl⟩).1,
    by decide⟩

theorem demo_HandleAnyErrors_reports (s1 : World demo.Gate)
    (h : s1.hidden.recorded.isSome = true) : (demo.env.HandleAnyErrors s1).1 = true := by
  show (demo.HandleAnyErrors s1).1 = true
  unfold demo.HandleAnyErrors
  cases hr : s1.hidden.recorded with
  | none => simp [hr] at h
  | some p => simp

/-- C7 at a concrete request: identity 7 with step-up enabled presents an assertion, and
`getAuthnText` records an error; neither the verifier nor the backend is called. -/
theorem webauthnSecure_authnText_witness :
    (∃ w ∈ (webauthnSecure demo.firewall demo.env demo.rejectingText
        (demo.request [("assertion", "withdraw $500")] [7])).afterAuthnText,
      w.hidden.recorded.isSome = true) ∧
    (∀ q E a, Event.CheckWebauthnAssertion q E a ∉
      (webauthnSecure demo.firewall demo.env demo.rejectingText
        (demo.request [("assertion", "withdraw $500")] [7])).trace) ∧
    Event.ServeHTTP ∉
      (webauthnSecure demo.firewall demo.env demo.rejectingText
        (demo.request [("assertion", "withdraw $500")] [7])).trace :=
  ⟨by decide,
    (webauthnSecure_authnText demo.firewall demo.env demo.rejectingText
      (demo.request [("assertion", "withdraw $500")] [7])
      (fun w => w.hidden.recorded.isSome) demo_HandleAnyErrors_reports).1 (by decide)⟩

end webauthn_firewall
